import Mathlib

/-!
# migadu-go: a shallow embedding of the client library

The Go package `migadu` (files `client.go`, `mailbox.go`, `identity.go`,
`alias.go`, `rewrite.go`) is embedded as Lean functions.

* A Go call either returns or panics (`Ret`); every embedded call also reports
  the requests it handed to `HTTPClient.Do` (`Outcome.sent`).
* A Go pointer is an `Option` (`none` is `nil`); a Go slice is an
  `Option (List _)` (`none` is the nil slice, `some []` an empty non-nil one).
* Behaviour of the Go standard library that the package only calls is a
  parameter, collected in `Env`: URL parsing inside
  `http.NewRequestWithContext`, the syntax pass and the per-type decoding of
  `json.Unmarshal`, the byte rendering of `json.Marshal`, and the default
  `http.Client`.
* What `json.Marshal` selects from a struct (field dominance between an
  embedded struct and its wrapper, `omitempty`) is modelled concretely, as the
  JSON document that gets rendered.
-/

namespace Migadu

/-! ## Go values -/

/-- Go slice: `none` is the nil slice. -/
abbrev Slice (α : Type) := Option (List α)

/-- Elements of a slice (a nil slice has none). -/
def Slice.elems {α : Type} : Slice α → List α
  | none => []
  | some l => l

/-- Go `len` on a slice. -/
def Slice.len {α : Type} (s : Slice α) : Nat := (Slice.elems s).length

/-- Go `float64`, kept as its IEEE-754 bit pattern (64 bits). -/
structure Float64 where
  bits : Nat
  deriving DecidableEq, Repr

/-- Comparison `f == 0` on a float64: true for both signed zeros. -/
def Float64.isZero (f : Float64) : Bool := f.bits % 2 ^ 63 == 0

/-- Neither an infinity nor a NaN: the exponent field is not all ones. -/
def Float64.isFinite (f : Float64) : Bool := (f.bits / 2 ^ 52) % 2 ^ 11 != 2047

/-- Go `error` values met in the package. -/
inductive GoError where
  /-- an error value made outside the package (net/http, net/url, the transport) -/
  | lib (msg : String)
  /-- result of `fmt.Errorf` with no `%w` verb -/
  | errorf (msg : String)
  /-- result of `fmt.Errorf` with a `%w` verb: the message and the wrapped error -/
  | wrap (msg : String) (inner : GoError)
  deriving DecidableEq, Repr

/-- The text of `err.Error()`. -/
def GoError.message : GoError → String
  | .lib m => m
  | .errorf m => m
  | .wrap m _ => m

/-- A JSON document. -/
inductive JValue where
  | null
  | bool (b : Bool)
  | int (n : Int)
  | float (f : Float64)
  | str (s : String)
  | arr (xs : List JValue)
  | obj (members : List (String × JValue))

/-- First member of a JSON object stored under `key`. -/
def lookupMember (key : String) : List (String × JValue) → Option JValue
  | [] => none
  | (k, v) :: rest => if k = key then some v else lookupMember key rest

/-! ## strings.Join and strings.Split -/

/-- Go `strings.Join(elems, sep)`: empty for no element, the element itself for
one, otherwise the first element followed by `sep ++ s` for each later `s`. -/
def stringsJoin (elems : List String) (sep : String) : String :=
  match elems with
  | [] => ""
  | [s] => s
  | s :: rest => rest.foldl (fun b x => b ++ sep ++ x) s

/-- Pieces of a character sequence between the occurrences of `sep`: one more
piece than there are occurrences, so the empty sequence gives one empty piece. -/
def splitChars (sep : Char) : List Char → List (List Char)
  | [] => [[]]
  | ch :: rest =>
    if ch = sep then [] :: splitChars sep rest
    else
      match splitChars sep rest with
      | [] => [[ch]]
      | piece :: pieces => (ch :: piece) :: pieces

/-- Go `strings.Split(s, sep)` for a one-character separator: the substrings of
`s` between the occurrences of `sep`, in order. -/
def stringsSplit (s : String) (sep : Char) : List String :=
  (splitChars sep s.data).map String.mk

/-! ## json.Marshal of a struct -/

/-- One field of a struct as `encoding/json` sees it. -/
structure Field where
  /-- key taken from the `json:"..."` tag -/
  name : String
  /-- index sequence: positions through embedded structs down to the field -/
  index : List Nat
  /-- the key comes from a tag -/
  tagged : Bool
  /-- the tag has the `omitempty` option -/
  omitEmpty : Bool
  /-- Go's `isEmptyValue` on the field value -/
  empty : Bool
  /-- the encoded value -/
  value : JValue

/-- Field `f` wins over another field `g` of the same key: it is less deeply
nested, or equally nested and the only tagged one of the two. -/
def Field.beats (f g : Field) : Bool :=
  decide (f.index.length < g.index.length)
    || (f.index.length == g.index.length && f.tagged && !g.tagged)

/-- Field `f` is the dominant field of its key among `fs` (Go's
`dominantField`): it wins over every other field with that key.  A key whose
best candidates tie has no dominant field. -/
def Field.dominant (fs : List Field) (f : Field) : Bool :=
  fs.all (fun g => g.name != f.name || g.index == f.index || f.beats g)

/-- Members `json.Marshal` writes for a struct whose fields, in index order,
are `fs`: the dominant field of each key, unless `omitempty` drops it. -/
def marshalFields (fs : List Field) : List (String × JValue) :=
  (fs.filter (fun f => f.dominant fs && !(f.omitEmpty && f.empty))).map
    (fun f => (f.name, f.value))

/-- Field of Go type `string` with tag `json:"name,omitempty"`. -/
def Field.ofString (name : String) (index : List Nat) (s : String) : Field :=
  ⟨name, index, true, true, s == "", .str s⟩

/-- Field of Go type `bool` with tag `json:"name,omitempty"`. -/
def Field.ofBool (name : String) (index : List Nat) (b : Bool) : Field :=
  ⟨name, index, true, true, !b, .bool b⟩

/-- Field of Go type `int` with tag `json:"name,omitempty"`. -/
def Field.ofInt (name : String) (index : List Nat) (n : Int) : Field :=
  ⟨name, index, true, true, n == 0, .int n⟩

/-- Field of Go type `float64` with tag `json:"name,omitempty"`. -/
def Field.ofFloat (name : String) (index : List Nat) (f : Float64) : Field :=
  ⟨name, index, true, true, f.isZero, .float f⟩

/-- Encoding of a Go slice given the encoding of its elements: `null` for nil. -/
def sliceValue {α : Type} (enc : α → JValue) : Slice α → JValue
  | none => .null
  | some l => .arr (l.map enc)

/-- Field of Go type `[]string` with tag `json:"name,omitempty"`. -/
def Field.ofStrings (name : String) (index : List Nat) (s : Slice String) : Field :=
  ⟨name, index, true, true, Slice.len s == 0, sliceValue JValue.str s⟩

/-! ## Entities (mailbox.go, identity.go, alias.go, rewrite.go) -/

/-- Identity represents an identity in the Migadu API (identity.go). -/
structure Identity where
  Address : String := ""
  DomainName : String := ""
  FooterActive : Bool := false
  FooterHTMLBody : String := ""
  FooterPlainBody : String := ""
  LocalPart : String := ""
  MayAccessImap : Bool := false
  MayAccessManagesieve : Bool := false
  MayAccessPop3 : Bool := false
  MayReceive : Bool := false
  MaySend : Bool := false
  Name : String := ""
  Password : String := ""
  deriving DecidableEq, Repr

/-- Fields of `Identity` with their json tags, in declaration order. -/
def Identity.fields (i : Identity) (pre : List Nat) : List Field :=
  [ Field.ofString "address" (pre ++ [0]) i.Address,
    Field.ofString "domain_name" (pre ++ [1]) i.DomainName,
    Field.ofBool "footer_active" (pre ++ [2]) i.FooterActive,
    Field.ofString "footer_html_body" (pre ++ [3]) i.FooterHTMLBody,
    Field.ofString "footer_plain_body" (pre ++ [4]) i.FooterPlainBody,
    Field.ofString "local_part" (pre ++ [5]) i.LocalPart,
    Field.ofBool "may_access_imap" (pre ++ [6]) i.MayAccessImap,
    Field.ofBool "may_access_managesieve" (pre ++ [7]) i.MayAccessManagesieve,
    Field.ofBool "may_access_pop3" (pre ++ [8]) i.MayAccessPop3,
    Field.ofBool "may_receive" (pre ++ [9]) i.MayReceive,
    Field.ofBool "may_send" (pre ++ [10]) i.MaySend,
    Field.ofString "name" (pre ++ [11]) i.Name,
    Field.ofString "password" (pre ++ [12]) i.Password ]

/-- The JSON document `json.Marshal` makes of an `Identity`. -/
def Identity.toJSON (i : Identity) : JValue := .obj (marshalFields (i.fields []))

/-- Mailbox represents a mailbox in the Migadu API (mailbox.go). -/
structure Mailbox where
  Address : String := ""
  AutorespondActive : Bool := false
  AutorespondBody : String := ""
  AutorespondExpiresOn : String := ""
  AutorespondSubject : String := ""
  ChangedAt : String := ""
  Delegations : Slice String := none
  DomainName : String := ""
  Expireable : Bool := false
  ExpiresOn : String := ""
  FooterActive : Bool := false
  FooterHTMLBody : String := ""
  FooterPlainBody : String := ""
  Identities : Slice Identity := none
  IsInternal : Bool := false
  LastLoginAt : String := ""
  LocalPart : String := ""
  MayAccessImap : Bool := false
  MayAccessManagesieve : Bool := false
  MayAccessPop3 : Bool := false
  MayReceive : Bool := false
  MaySend : Bool := false
  Name : String := ""
  Password : String := ""
  PasswordMethod : String := ""
  PasswordRecoveryEmail : String := ""
  RecipientDenylist : Slice String := none
  RemoveUponExpiry : Bool := false
  SenderAllowlist : Slice String := none
  SenderDenylist : Slice String := none
  SpamAction : String := ""
  SpamAggressiveness : String := ""
  StorageUsage : Float64 := ⟨0⟩
  deriving DecidableEq, Repr

/-- Fields of `Mailbox` with their json tags, in declaration order. -/
def Mailbox.fields (m : Mailbox) (pre : List Nat) : List Field :=
  [ Field.ofString "address" (pre ++ [0]) m.Address,
    Field.ofBool "autorespond_active" (pre ++ [1]) m.AutorespondActive,
    Field.ofString "autorespond_body" (pre ++ [2]) m.AutorespondBody,
    Field.ofString "autorespond_expires_on" (pre ++ [3]) m.AutorespondExpiresOn,
    Field.ofString "autorespond_subject" (pre ++ [4]) m.AutorespondSubject,
    Field.ofString "changed_at" (pre ++ [5]) m.ChangedAt,
    Field.ofStrings "delegations" (pre ++ [6]) m.Delegations,
    Field.ofString "domain_name" (pre ++ [7]) m.DomainName,
    Field.ofBool "expireable" (pre ++ [8]) m.Expireable,
    Field.ofString "expires_on" (pre ++ [9]) m.ExpiresOn,
    Field.ofBool "footer_active" (pre ++ [10]) m.FooterActive,
    Field.ofString "footer_html_body" (pre ++ [11]) m.FooterHTMLBody,
    Field.ofString "footer_plain_body" (pre ++ [12]) m.FooterPlainBody,
    ⟨"identities", pre ++ [13], true, true, Slice.len m.Identities == 0,
      sliceValue Identity.toJSON m.Identities⟩,
    Field.ofBool "is_internal" (pre ++ [14]) m.IsInternal,
    Field.ofString "last_login_at" (pre ++ [15]) m.LastLoginAt,
    Field.ofString "local_part" (pre ++ [16]) m.LocalPart,
    Field.ofBool "may_access_imap" (pre ++ [17]) m.MayAccessImap,
    Field.ofBool "may_access_managesieve" (pre ++ [18]) m.MayAccessManagesieve,
    Field.ofBool "may_access_pop3" (pre ++ [19]) m.MayAccessPop3,
    Field.ofBool "may_receive" (pre ++ [20]) m.MayReceive,
    Field.ofBool "may_send" (pre ++ [21]) m.MaySend,
    Field.ofString "name" (pre ++ [22]) m.Name,
    Field.ofString "password" (pre ++ [23]) m.Password,
    Field.ofString "password_method" (pre ++ [24]) m.PasswordMethod,
    Field.ofString "password_recovery_email" (pre ++ [25]) m.PasswordRecoveryEmail,
    Field.ofStrings "recipient_denylist" (pre ++ [26]) m.RecipientDenylist,
    Field.ofBool "remove_upon_expiry" (pre ++ [27]) m.RemoveUponExpiry,
    Field.ofStrings "sender_allowlist" (pre ++ [28]) m.SenderAllowlist,
    Field.ofStrings "sender_denylist" (pre ++ [29]) m.SenderDenylist,
    Field.ofString "spam_action" (pre ++ [30]) m.SpamAction,
    Field.ofString "spam_aggressiveness" (pre ++ [31]) m.SpamAggressiveness,
    Field.ofFloat "storage_usage" (pre ++ [32]) m.StorageUsage ]

/-- Result of `json.Marshal` on a `Mailbox`: `none` when Marshal fails, which it
does exactly when `StorageUsage` has to be written and is an infinity or a NaN. -/
def Mailbox.toJSON (m : Mailbox) : Option JValue :=
  if !m.StorageUsage.isZero && !m.StorageUsage.isFinite then none
  else some (.obj (marshalFields (m.fields [])))

/-- Alias represents an alias in the Migadu API (alias.go). -/
structure Alias where
  Address : String := ""
  Destinations : Slice String := none
  DomainName : String := ""
  Expireable : Bool := false
  ExpiresOn : String := ""
  IsInternal : Bool := false
  LocalPart : String := ""
  RemoveUponExpiry : Bool := false
  deriving DecidableEq, Repr

/-- Fields of `Alias` with their json tags, in declaration order. -/
def Alias.fields (a : Alias) (pre : List Nat) : List Field :=
  [ Field.ofString "address" (pre ++ [0]) a.Address,
    Field.ofStrings "destinations" (pre ++ [1]) a.Destinations,
    Field.ofString "domain_name" (pre ++ [2]) a.DomainName,
    Field.ofBool "expireable" (pre ++ [3]) a.Expireable,
    Field.ofString "expires_on" (pre ++ [4]) a.ExpiresOn,
    Field.ofBool "is_internal" (pre ++ [5]) a.IsInternal,
    Field.ofString "local_part" (pre ++ [6]) a.LocalPart,
    Field.ofBool "remove_upon_expiry" (pre ++ [7]) a.RemoveUponExpiry ]

/-- The struct aliasJSON is used when a new/updated alias object goes to the
API: it embeds `Alias` and adds a string field under the same json key. -/
structure aliasJSON where
  Alias : Alias := {}
  DestinationsJSON : String := ""
  deriving DecidableEq, Repr

/-- The method convertDestinationsField joins the destinations into a comma
separated line and sets the embedded slice to nil. -/
def aliasJSON.convertDestinationsField (a : aliasJSON) : aliasJSON :=
  { a with
    DestinationsJSON := stringsJoin (Slice.elems a.Alias.Destinations) ",",
    Alias := { a.Alias with Destinations := none } }

/-- Fields of `aliasJSON`: the promoted fields of the embedded `Alias` (index
0), then `DestinationsJSON` (index 1, tag `json:"destinations,omitempty"`). -/
def aliasJSON.fields (a : aliasJSON) : List Field :=
  a.Alias.fields [0] ++ [Field.ofString "destinations" [1] a.DestinationsJSON]

/-- The JSON document `json.Marshal` makes of an `aliasJSON`. -/
def aliasJSON.toJSON (a : aliasJSON) : JValue := .obj (marshalFields a.fields)

/-- Rewrite represents a rewrite rule in the Migadu API (rewrite.go). -/
structure Rewrite where
  Destinations : Slice String := none
  LocalPartRule : String := ""
  Name : String := ""
  OrderNum : Int := 0
  deriving DecidableEq, Repr

/-- Fields of `Rewrite` with their json tags, in declaration order. -/
def Rewrite.fields (r : Rewrite) (pre : List Nat) : List Field :=
  [ Field.ofStrings "destinations" (pre ++ [0]) r.Destinations,
    Field.ofString "local_part_rule" (pre ++ [1]) r.LocalPartRule,
    Field.ofString "name" (pre ++ [2]) r.Name,
    Field.ofInt "order_num" (pre ++ [3]) r.OrderNum ]

/-- The struct rewriteJSON is used when a new/updated rewrite goes to the API. -/
structure rewriteJSON where
  Rewrite : Rewrite := {}
  DestinationsJSON : String := ""
  deriving DecidableEq, Repr

/-- The method convertDestinationsField joins the destinations into a comma
separated line and sets the embedded slice to nil. -/
def rewriteJSON.convertDestinationsField (r : rewriteJSON) : rewriteJSON :=
  { r with
    DestinationsJSON := stringsJoin (Slice.elems r.Rewrite.Destinations) ",",
    Rewrite := { r.Rewrite with Destinations := none } }

/-- Fields of `rewriteJSON`: the promoted fields of the embedded `Rewrite`
(index 0), then `DestinationsJSON` (index 1). -/
def rewriteJSON.fields (r : rewriteJSON) : List Field :=
  r.Rewrite.fields [0] ++ [Field.ofString "destinations" [1] r.DestinationsJSON]

/-- The JSON document `json.Marshal` makes of a `rewriteJSON`. -/
def rewriteJSON.toJSON (r : rewriteJSON) : JValue := .obj (marshalFields r.fields)

/-! ## Transport Core (client.go) -/

/-- Go `context.Context`, as far as the package can observe it at call time. -/
structure Context where
  /-- the context is already cancelled: `ctx.Err() != nil` -/
  done : Bool
  /-- seconds left until the deadline, when there is one -/
  timeout : Option Nat
  deriving DecidableEq, Repr

/-- Go `context.Background()`: never cancelled, no deadline. -/
def Context.Background : Context := ⟨false, none⟩

/-- Go `context.WithTimeout(parent, seconds)`: cancelled when the parent is, and
its deadline is the earlier of the parent's and `seconds` from now. -/
def Context.WithTimeout (parent : Context) (seconds : Nat) : Context :=
  ⟨parent.done,
    some (match parent.timeout with
      | none => seconds
      | some t => min t seconds)⟩

/-- The parts of an `*http.Request` the package sets. -/
structure Request where
  ctx : Context
  Method : String
  URL : String
  /-- request body; `none` for a nil body -/
  Body : Option String
  /-- user name and password given to `SetBasicAuth` -/
  BasicAuth : Option (String × String) := none
  /-- headers added with `Header.Add`, in order -/
  Header : List (String × String) := []
  deriving DecidableEq, Repr

/-- Go `req.SetBasicAuth(username, password)`. -/
def Request.SetBasicAuth (r : Request) (username password : String) : Request :=
  { r with BasicAuth := some (username, password) }

/-- Go `req.Header.Add(key, value)`. -/
def Request.HeaderAdd (r : Request) (key value : String) : Request :=
  { r with Header := r.Header ++ [(key, value)] }

/-- The parts of an `*http.Response` the package reads: the status code and the
bytes `ioutil.ReadAll(resp.Body)` yields. -/
structure Response where
  StatusCode : Int
  Body : String
  deriving DecidableEq, Repr

/-- Go `ioutil.ReadAll(resp.Body)`, the error being discarded by every caller. -/
def ReadAll (resp : Response) : String := resp.Body

/-- The interface httpClient: `Do(req) (*http.Response, error)`. -/
abbrev httpClient := Request → Option Response × Option GoError

/-- Standard-library behaviour the package relies on. -/
structure Env where
  /-- error of `url.Parse` on a URL inside `http.NewRequestWithContext`, if any -/
  urlError : String → Option GoError
  /-- the default `http.Client` transport that `New` installs -/
  defaultClient : httpClient
  /-- bytes `json.Marshal` renders for a JSON document -/
  encode : JValue → String
  /-- syntax pass of `json.Unmarshal`: `none` when the input is not valid JSON -/
  parseJSON : String → Option JValue
  /-- case-insensitive key match used by the decoder after an exact match fails -/
  equalFold : String → String → Bool
  /-- decoding of a JSON document into an existing `Mailbox` -/
  decMailbox : JValue → Mailbox → Mailbox
  /-- decoding of a JSON document into an existing `Identity` -/
  decIdentity : JValue → Identity → Identity
  /-- decoding of a JSON document into an existing `Alias` -/
  decAlias : JValue → Alias → Alias
  /-- decoding of a JSON document into an existing `Rewrite` -/
  decRewrite : JValue → Rewrite → Rewrite

/-- Client represents a client for working with Migadu API. -/
structure Client where
  Email : String
  APIKey : String
  Domain : String
  Timeout : Int := 0
  BaseURL : String
  HTTPClient : httpClient

/-- How a Go call ends. -/
inductive Ret (β : Type) where
  /-- the call returns `v` -/
  | returned (v : β)
  /-- the call panics (nil pointer dereference) -/
  | panicked

/-- A Go call: how it ends and the requests it passed to `HTTPClient.Do`. -/
structure Outcome (β : Type) where
  ret : Ret β
  sent : List Request

/-- Go `http.NewRequestWithContext(ctx, method, url, body)` for a valid method
and a non-nil context: a request, or nil and the error of parsing the URL. -/
def NewRequestWithContext (env : Env) (ctx : Context) (method url : String)
    (body : Option String) : Option Request × Option GoError :=
  match env.urlError url with
  | some e => (none, some e)
  | none => (some { ctx := ctx, Method := method, URL := url, Body := body }, none)

/-- Get is a convenience function to GET an HTTP resource given a path. -/
def Client.Get (c : Client) (env : Env) (ctx : Context) (path : String) :
    Outcome (Option Response × Option GoError) :=
  let ctx := ctx.WithTimeout 120
  let urlPath := c.BaseURL ++ "/" ++ path
  match NewRequestWithContext env ctx "GET" urlPath none with
  | (none, _) => ⟨.panicked, []⟩ -- req.SetBasicAuth on a nil request
  | (some req, err) =>
    let req := req.SetBasicAuth c.Email c.APIKey
    match err with
    | some e => ⟨.returned (none, some e), []⟩
    | none =>
      match c.HTTPClient req with
      | (_, some e) => ⟨.returned (none, some e), [req]⟩
      | (none, none) => ⟨.panicked, [req]⟩ -- resp.StatusCode on a nil response
      | (some resp, none) =>
        if resp.StatusCode ≠ 200 then
          ⟨.returned (none, some (.errorf
            ("status code " ++ toString resp.StatusCode ++ " is not 200"))), [req]⟩
        else ⟨.returned (some resp, none), [req]⟩

/-- Post is a convenience function to POST to an HTTP resource given a path and
a byte slice. -/
def Client.Post (c : Client) (env : Env) (ctx : Context) (path : String) (body : String) :
    Outcome (Option Response × Option GoError) :=
  let ctx := ctx.WithTimeout 120
  let urlPath := c.BaseURL ++ "/" ++ path
  match NewRequestWithContext env ctx "POST" urlPath (some body) with
  | (none, _) => ⟨.panicked, []⟩ -- req.SetBasicAuth on a nil request
  | (some req, err) =>
    let req := req.SetBasicAuth c.Email c.APIKey
    let req := req.HeaderAdd "Content-Type" "application/json"
    match err with
    | some e => ⟨.returned (none, some e), []⟩
    | none =>
      match c.HTTPClient req with
      | (_, some e) => ⟨.returned (none, some e), [req]⟩
      | (none, none) => ⟨.panicked, [req]⟩ -- resp.StatusCode on a nil response
      | (some resp, none) =>
        if resp.StatusCode ≠ 200 then
          ⟨.returned (none, some (.errorf
            ("Error: status code " ++ toString resp.StatusCode ++ " is not 200"))), [req]⟩
        else ⟨.returned (some resp, none), [req]⟩

/-- Put is a convenience function to PUT to an HTTP resource given a path and a
byte slice. -/
def Client.Put (c : Client) (env : Env) (ctx : Context) (path : String) (body : String) :
    Outcome (Option Response × Option GoError) :=
  let ctx := ctx.WithTimeout 120
  let urlPath := c.BaseURL ++ "/" ++ path
  match NewRequestWithContext env ctx "PUT" urlPath (some body) with
  | (none, _) => ⟨.panicked, []⟩ -- req.SetBasicAuth on a nil request
  | (some req, err) =>
    let req := req.SetBasicAuth c.Email c.APIKey
    let req := req.HeaderAdd "Content-Type" "application/json"
    match err with
    | some e => ⟨.returned (none, some e), []⟩
    | none =>
      match c.HTTPClient req with
      | (_, some e) => ⟨.returned (none, some e), [req]⟩
      | (none, none) => ⟨.panicked, [req]⟩ -- resp.StatusCode on a nil response
      | (some resp, none) =>
        if resp.StatusCode ≠ 200 then
          ⟨.returned (none, some (.errorf
            ("Error: status code " ++ toString resp.StatusCode ++ " is not 200"))), [req]⟩
        else ⟨.returned (some resp, none), [req]⟩

/-- Delete is a convenience function to DELETE an HTTP resource given a path. -/
def Client.Delete (c : Client) (env : Env) (ctx : Context) (path : String) :
    Outcome (Option Response × Option GoError) :=
  let ctx := ctx.WithTimeout 120
  let urlPath := c.BaseURL ++ "/" ++ path
  match NewRequestWithContext env ctx "DELETE" urlPath none with
  | (none, _) => ⟨.panicked, []⟩ -- req.SetBasicAuth on a nil request
  | (some req, err) =>
    let req := req.SetBasicAuth c.Email c.APIKey
    match err with
    | some e => ⟨.returned (none, some e), []⟩
    | none =>
      match c.HTTPClient req with
      | (_, some e) => ⟨.returned (none, some e), [req]⟩
      | (none, none) => ⟨.panicked, [req]⟩ -- resp.StatusCode on a nil response
      | (some resp, none) =>
        if resp.StatusCode ≠ 200 then
          ⟨.returned (none, some (.errorf
            ("Error: status code " ++ toString resp.StatusCode ++ " is not 200"))), [req]⟩
        else ⟨.returned (some resp, none), [req]⟩

/-- The method testAuth tests that credentials are valid before creating a
client.  It returns any error encountered. -/
def Client.testAuth (c : Client) (env : Env) : Outcome (Option GoError) :=
  let ctx := Context.Background
  let call := c.Get env ctx "mailboxes"
  match call.ret with
  | .panicked => ⟨.panicked, call.sent⟩
  | .returned (_, some err) =>
    ⟨.returned (some (.wrap ("Authorisation not valid. Error: " ++ err.message) err)),
      call.sent⟩
  | .returned (_, none) => ⟨.returned none, call.sent⟩

/-- New creates a new client for one domain on Migadu given the admin email and
API key.  It returns a pointer to the new client and any error encountered. -/
def New (env : Env) (email apiKey domain : String) : Outcome (Option Client × Option GoError) :=
  let baseURL := "https://api.migadu.com/v1/domains/" ++ domain
  let client : Client :=
    { Email := email, APIKey := apiKey, Domain := domain, BaseURL := baseURL,
      HTTPClient := env.defaultClient }
  let call := client.testAuth env
  match call.ret with
  | .panicked => ⟨.panicked, call.sent⟩
  | .returned (some err) => ⟨.returned (none, some err), call.sent⟩
  | .returned none => ⟨.returned (some client, none), call.sent⟩

/-! ## json.Marshal and json.Unmarshal as the package calls them -/

/-- Bytes of `jsonBody, _ := json.Marshal(x)`: the rendering of the document,
or no bytes when Marshal fails (its error is discarded). -/
def marshalBytes (env : Env) (doc : Option JValue) : String :=
  match doc with
  | some j => env.encode j
  | none => ""

/-- Go `json.Unmarshal(body, &target)` with its error discarded, for a struct
or slice target: input that is not valid JSON leaves the target as it was. -/
def jsonUnmarshal {α : Type} (env : Env) (dec : JValue → α → α) (body : String)
    (target : α) : α :=
  match env.parseJSON body with
  | none => target
  | some v => dec v target

/-- Go `json.Unmarshal(body, &p)` with its error discarded, where `p` is itself
a non-nil pointer to a struct: a JSON `null` sets `p` to nil, any other valid
document is decoded into the struct `p` points to. -/
def jsonUnmarshalPtr {α : Type} (env : Env) (dec : JValue → α → α) (body : String)
    (target : α) : Option α :=
  match env.parseJSON body with
  | none => some target
  | some .null => none
  | some v => some (dec v target)

/-- Decoding of a JSON value into a slice: an array replaces the slice by its
decoded elements (an empty array gives an empty non-nil slice), `null` sets it
to nil, anything else leaves it as it was. -/
def decodeSlice {α : Type} (decElem : JValue → α → α) (zero : α) :
    JValue → Slice α → Slice α
  | .arr xs, _ => some (xs.map (fun x => decElem x zero))
  | .null, _ => none
  | _, cur => cur

/-- Decoding of a JSON document into a struct with the single slice field
tagged `key`: each member whose key matches, exactly or case-insensitively, is
decoded into the field, in document order; other members are skipped. -/
def decodeEnvelope {α : Type} (env : Env) (key : String) (decElem : JValue → α → α)
    (zero : α) : JValue → Slice α → Slice α
  | .obj members, cur =>
    members.foldl
      (fun acc m =>
        if m.1 = key || env.equalFold key m.1 then decodeSlice decElem zero m.2 acc
        else acc)
      cur
  | _, cur => cur

/-! ## Mailboxes (mailbox.go) -/

/-- ListMailboxes lists all the mailboxes for the domain configured on the
client.  It returns a pointer to a slice of mailboxes and any error. -/
def Client.ListMailboxes (c : Client) (env : Env) (ctx : Context) :
    Outcome (Option (Slice Mailbox) × Option GoError) :=
  let mailboxList : Slice Mailbox := none
  let call := c.Get env ctx "mailboxes"
  match call.ret with
  | .panicked => ⟨.panicked, call.sent⟩
  | .returned (_, some err) => ⟨.returned (none, some err), call.sent⟩
  | .returned (none, none) => ⟨.panicked, call.sent⟩ -- resp.Body on a nil response
  | .returned (some resp, none) =>
    let body := ReadAll resp
    ⟨.returned (some (jsonUnmarshal env (decodeEnvelope env "mailboxes" env.decMailbox {}) body mailboxList), none), call.sent⟩

/-- GetMailbox retrieves a single mailbox given its local part name. -/
def Client.GetMailbox (c : Client) (env : Env) (ctx : Context) (localPart : String) :
    Outcome (Option Mailbox × Option GoError) :=
  let mailbox : Mailbox := {}
  let call := c.Get env ctx ("mailboxes/" ++ localPart)
  match call.ret with
  | .panicked => ⟨.panicked, call.sent⟩
  | .returned (_, some err) => ⟨.returned (none, some err), call.sent⟩
  | .returned (none, none) => ⟨.panicked, call.sent⟩ -- resp.Body on a nil response
  | .returned (some resp, none) =>
    let body := ReadAll resp
    ⟨.returned (some (jsonUnmarshal env env.decMailbox body mailbox), none), call.sent⟩

/-- The mailbox NewMailbox builds from its arguments before it is sent. -/
def newMailboxValue (localPart displayName invitationEmail initialPassword : String) : Mailbox :=
  let mailbox : Mailbox :=
    { LocalPart := localPart, Name := displayName, PasswordRecoveryEmail := invitationEmail }
  if initialPassword ≠ "" then
    { mailbox with PasswordMethod := "password", Password := initialPassword }
  else
    { mailbox with PasswordMethod := "invitation" }

/-- NewMailbox creates a new mailbox given the local part, a display name, an
invitation email and an optional password. -/
def Client.NewMailbox (c : Client) (env : Env) (ctx : Context) (localPart displayName invitationEmail initialPassword : String) :
    Outcome (Option Mailbox × Option GoError) :=
  let mailbox := newMailboxValue localPart displayName invitationEmail initialPassword
  let jsonBody := marshalBytes env mailbox.toJSON
  let call := c.Post env ctx "mailboxes" jsonBody
  match call.ret with
  | .panicked => ⟨.panicked, call.sent⟩
  | .returned (_, some err) => ⟨.returned (none, some err), call.sent⟩
  | .returned (none, none) => ⟨.panicked, call.sent⟩ -- resp.Body on a nil response
  | .returned (some resp, none) =>
    let body := ReadAll resp
    ⟨.returned (some (jsonUnmarshal env env.decMailbox body mailbox), none), call.sent⟩

/-- UpdateMailbox updates a mailbox in place given a (non-nil) pointer to a
Mailbox struct; `mb` is the struct pointed to. -/
def Client.UpdateMailbox (c : Client) (env : Env) (ctx : Context) (mb : Mailbox) :
    Outcome (Option Mailbox × Option GoError) :=
  let jsonBody := marshalBytes env mb.toJSON
  let call := c.Put env ctx ("mailboxes/" ++ mb.LocalPart) jsonBody
  match call.ret with
  | .panicked => ⟨.panicked, call.sent⟩
  | .returned (_, some err) => ⟨.returned (none, some err), call.sent⟩
  | .returned (none, none) => ⟨.panicked, call.sent⟩ -- resp.Body on a nil response
  | .returned (some resp, none) =>
    let body := ReadAll resp
    ⟨.returned (jsonUnmarshalPtr env env.decMailbox body mb, none), call.sent⟩

/-- DeleteMailbox deletes a mailbox given a (non-nil) pointer to a Mailbox
struct.  It returns any error encountered. -/
def Client.DeleteMailbox (c : Client) (env : Env) (ctx : Context) (mb : Mailbox) :
    Outcome (Option GoError) :=
  let call := c.Delete env ctx ("mailboxes/" ++ mb.LocalPart)
  match call.ret with
  | .panicked => ⟨.panicked, call.sent⟩
  | .returned (_, some err) => ⟨.returned (some err), call.sent⟩
  | .returned (_, none) => ⟨.returned none, call.sent⟩

/-! ## Identities (identity.go) -/

/-- ListIdentities lists all the identities for the given mailbox local part
name. -/
def Client.ListIdentities (c : Client) (env : Env) (ctx : Context) (mailbox : String) :
    Outcome (Option (Slice Identity) × Option GoError) :=
  let identityList : Slice Identity := none
  let call := c.Get env ctx ("mailboxes/" ++ mailbox ++ "/identities")
  match call.ret with
  | .panicked => ⟨.panicked, call.sent⟩
  | .returned (_, some err) => ⟨.returned (none, some err), call.sent⟩
  | .returned (none, none) => ⟨.panicked, call.sent⟩ -- resp.Body on a nil response
  | .returned (some resp, none) =>
    let body := ReadAll resp
    ⟨.returned (some (jsonUnmarshal env (decodeEnvelope env "identities" env.decIdentity {}) body identityList), none), call.sent⟩

/-- GetIdentity retrieves a single identity given its mailbox name and local
part name. -/
def Client.GetIdentity (c : Client) (env : Env) (ctx : Context) (mailbox localPart : String) :
    Outcome (Option Identity × Option GoError) :=
  let identity : Identity := {}
  let call := c.Get env ctx ("mailboxes/" ++ mailbox ++ "/identities/" ++ localPart)
  match call.ret with
  | .panicked => ⟨.panicked, call.sent⟩
  | .returned (_, some err) => ⟨.returned (none, some err), call.sent⟩
  | .returned (none, none) => ⟨.panicked, call.sent⟩ -- resp.Body on a nil response
  | .returned (some resp, none) =>
    let body := ReadAll resp
    ⟨.returned (some (jsonUnmarshal env env.decIdentity body identity), none), call.sent⟩

/-- NewIdentity creates a new identity given the mailbox, local part name and a
display name. -/
def Client.NewIdentity (c : Client) (env : Env) (ctx : Context) (mailbox localPart displayName : String) :
    Outcome (Option Identity × Option GoError) :=
  let identity : Identity := { LocalPart := localPart, Name := displayName }
  let jsonBody := marshalBytes env (some identity.toJSON)
  let call := c.Post env ctx ("mailboxes/" ++ mailbox ++ "/identities") jsonBody
  match call.ret with
  | .panicked => ⟨.panicked, call.sent⟩
  | .returned (_, some err) => ⟨.returned (none, some err), call.sent⟩
  | .returned (none, none) => ⟨.panicked, call.sent⟩ -- resp.Body on a nil response
  | .returned (some resp, none) =>
    let body := ReadAll resp
    ⟨.returned (some (jsonUnmarshal env env.decIdentity body identity), none), call.sent⟩

/-- UpdateIdentity updates an identity in place given a (non-nil) pointer to an
Identity struct; `i` is the struct pointed to. -/
def Client.UpdateIdentity (c : Client) (env : Env) (ctx : Context) (mailbox : String) (i : Identity) :
    Outcome (Option Identity × Option GoError) :=
  let jsonBody := marshalBytes env (some i.toJSON)
  let call := c.Put env ctx ("mailboxes/" ++ mailbox ++ "/identities/" ++ i.LocalPart) jsonBody
  match call.ret with
  | .panicked => ⟨.panicked, call.sent⟩
  | .returned (_, some err) => ⟨.returned (none, some err), call.sent⟩
  | .returned (none, none) => ⟨.panicked, call.sent⟩ -- resp.Body on a nil response
  | .returned (some resp, none) =>
    let body := ReadAll resp
    ⟨.returned (jsonUnmarshalPtr env env.decIdentity body i, none), call.sent⟩

/-- DeleteIdentity deletes an identity given a (non-nil) pointer to an Identity
struct.  It returns any error encountered. -/
def Client.DeleteIdentity (c : Client) (env : Env) (ctx : Context) (mailbox : String) (i : Identity) :
    Outcome (Option GoError) :=
  let call := c.Delete env ctx ("mailboxes/" ++ mailbox ++ "/identities/" ++ i.LocalPart)
  match call.ret with
  | .panicked => ⟨.panicked, call.sent⟩
  | .returned (_, some err) => ⟨.returned (some err), call.sent⟩
  | .returned (_, none) => ⟨.returned none, call.sent⟩

/-! ## Aliases (alias.go) -/

/-- ListAliases lists all the aliases for the domain configured on the client. -/
def Client.ListAliases (c : Client) (env : Env) (ctx : Context) :
    Outcome (Option (Slice Alias) × Option GoError) :=
  let aliasList : Slice Alias := none
  let call := c.Get env ctx "aliases"
  match call.ret with
  | .panicked => ⟨.panicked, call.sent⟩
  | .returned (_, some err) => ⟨.returned (none, some err), call.sent⟩
  | .returned (none, none) => ⟨.panicked, call.sent⟩ -- resp.Body on a nil response
  | .returned (some resp, none) =>
    let body := ReadAll resp
    ⟨.returned (some (jsonUnmarshal env (decodeEnvelope env "address_aliases" env.decAlias {}) body aliasList), none), call.sent⟩

/-- GetAlias retrieves a single alias given its local part name. -/
def Client.GetAlias (c : Client) (env : Env) (ctx : Context) (localPart : String) :
    Outcome (Option Alias × Option GoError) :=
  let al : Alias := {}
  let call := c.Get env ctx ("aliases/" ++ localPart)
  match call.ret with
  | .panicked => ⟨.panicked, call.sent⟩
  | .returned (_, some err) => ⟨.returned (none, some err), call.sent⟩
  | .returned (none, none) => ⟨.panicked, call.sent⟩ -- resp.Body on a nil response
  | .returned (some resp, none) =>
    let body := ReadAll resp
    ⟨.returned (some (jsonUnmarshal env env.decAlias body al), none), call.sent⟩

/-- The document an alias is written as: wrapped in `aliasJSON`, passed through
`convertDestinationsField`, then marshalled. -/
def aliasWriteDoc (al : Alias) : JValue :=
  let aliasJSON : aliasJSON := { Alias := al }
  let aliasJSON := aliasJSON.convertDestinationsField
  aliasJSON.toJSON

/-- NewAlias creates a new alias given the local part name and its
destinations. -/
def Client.NewAlias (c : Client) (env : Env) (ctx : Context) (localPart : String) (destinations : Slice String) :
    Outcome (Option Alias × Option GoError) :=
  let al : Alias := { LocalPart := localPart, Destinations := destinations }
  let jsonBody := marshalBytes env (some (aliasWriteDoc al))
  let call := c.Post env ctx "aliases" jsonBody
  match call.ret with
  | .panicked => ⟨.panicked, call.sent⟩
  | .returned (_, some err) => ⟨.returned (none, some err), call.sent⟩
  | .returned (none, none) => ⟨.panicked, call.sent⟩ -- resp.Body on a nil response
  | .returned (some resp, none) =>
    let body := ReadAll resp
    ⟨.returned (some (jsonUnmarshal env env.decAlias body al), none), call.sent⟩

/-- UpdateAlias updates an alias in place given a (non-nil) pointer to an Alias
struct; `a` is the struct pointed to. -/
def Client.UpdateAlias (c : Client) (env : Env) (ctx : Context) (a : Alias) :
    Outcome (Option Alias × Option GoError) :=
  let jsonBody := marshalBytes env (some (aliasWriteDoc a))
  let call := c.Put env ctx ("aliases/" ++ a.LocalPart) jsonBody
  match call.ret with
  | .panicked => ⟨.panicked, call.sent⟩
  | .returned (_, some err) => ⟨.returned (none, some err), call.sent⟩
  | .returned (none, none) => ⟨.panicked, call.sent⟩ -- resp.Body on a nil response
  | .returned (some resp, none) =>
    let body := ReadAll resp
    ⟨.returned (jsonUnmarshalPtr env env.decAlias body a, none), call.sent⟩

/-- DeleteAlias deletes an alias given a (non-nil) pointer to an Alias struct.
It returns any error encountered. -/
def Client.DeleteAlias (c : Client) (env : Env) (ctx : Context) (a : Alias) :
    Outcome (Option GoError) :=
  let call := c.Delete env ctx ("aliases/" ++ a.LocalPart)
  match call.ret with
  | .panicked => ⟨.panicked, call.sent⟩
  | .returned (_, some err) => ⟨.returned (some err), call.sent⟩
  | .returned (_, none) => ⟨.returned none, call.sent⟩

/-! ## Rewrites (rewrite.go) -/

/-- ListRewrites lists all the rewrites for the domain configured on the
client. -/
def Client.ListRewrites (c : Client) (env : Env) (ctx : Context) :
    Outcome (Option (Slice Rewrite) × Option GoError) :=
  let rewriteList : Slice Rewrite := none
  let call := c.Get env ctx "rewrites"
  match call.ret with
  | .panicked => ⟨.panicked, call.sent⟩
  | .returned (_, some err) => ⟨.returned (none, some err), call.sent⟩
  | .returned (none, none) => ⟨.panicked, call.sent⟩ -- resp.Body on a nil response
  | .returned (some resp, none) =>
    let body := ReadAll resp
    ⟨.returned (some (jsonUnmarshal env (decodeEnvelope env "rewrites" env.decRewrite {}) body rewriteList), none), call.sent⟩

/-- GetRewrite retrieves a single rewrite given its name. -/
def Client.GetRewrite (c : Client) (env : Env) (ctx : Context) (name : String) :
    Outcome (Option Rewrite × Option GoError) :=
  let rewrite : Rewrite := {}
  let call := c.Get env ctx ("rewrites/" ++ name)
  match call.ret with
  | .panicked => ⟨.panicked, call.sent⟩
  | .returned (_, some err) => ⟨.returned (none, some err), call.sent⟩
  | .returned (none, none) => ⟨.panicked, call.sent⟩ -- resp.Body on a nil response
  | .returned (some resp, none) =>
    let body := ReadAll resp
    ⟨.returned (some (jsonUnmarshal env env.decRewrite body rewrite), none), call.sent⟩

/-- The document a rewrite is written as: wrapped in `rewriteJSON`, passed
through `convertDestinationsField`, then marshalled. -/
def rewriteWriteDoc (rewrite : Rewrite) : JValue :=
  let rewriteJSON : rewriteJSON := { Rewrite := rewrite }
  let rewriteJSON := rewriteJSON.convertDestinationsField
  rewriteJSON.toJSON

/-- NewRewrite creates a new rewrite given the name, local part rule and its
destinations. -/
def Client.NewRewrite (c : Client) (env : Env) (ctx : Context) (name localPartRule : String) (destinations : Slice String) :
    Outcome (Option Rewrite × Option GoError) :=
  let rewrite : Rewrite :=
    { Name := name, LocalPartRule := localPartRule, Destinations := destinations }
  let jsonBody := marshalBytes env (some (rewriteWriteDoc rewrite))
  let call := c.Post env ctx "rewrites" jsonBody
  match call.ret with
  | .panicked => ⟨.panicked, call.sent⟩
  | .returned (_, some err) => ⟨.returned (none, some err), call.sent⟩
  | .returned (none, none) => ⟨.panicked, call.sent⟩ -- resp.Body on a nil response
  | .returned (some resp, none) =>
    let body := ReadAll resp
    ⟨.returned (some (jsonUnmarshal env env.decRewrite body rewrite), none), call.sent⟩

/-- UpdateRewrite updates a rewrite in place given a (non-nil) pointer to a
Rewrite struct; `r` is the struct pointed to. -/
def Client.UpdateRewrite (c : Client) (env : Env) (ctx : Context) (r : Rewrite) :
    Outcome (Option Rewrite × Option GoError) :=
  let jsonBody := marshalBytes env (some (rewriteWriteDoc r))
  let call := c.Put env ctx ("rewrites/" ++ r.Name) jsonBody
  match call.ret with
  | .panicked => ⟨.panicked, call.sent⟩
  | .returned (_, some err) => ⟨.returned (none, some err), call.sent⟩
  | .returned (none, none) => ⟨.panicked, call.sent⟩ -- resp.Body on a nil response
  | .returned (some resp, none) =>
    let body := ReadAll resp
    ⟨.returned (jsonUnmarshalPtr env env.decRewrite body r, none), call.sent⟩

/-- DeleteRewrite deletes a rewrite given a (non-nil) pointer to a Rewrite
struct.  It returns any error encountered. -/
def Client.DeleteRewrite (c : Client) (env : Env) (ctx : Context) (r : Rewrite) :
    Outcome (Option GoError) :=
  let call := c.Delete env ctx ("rewrites/" ++ r.Name)
  match call.ret with
  | .panicked => ⟨.panicked, call.sent⟩
  | .returned (_, some err) => ⟨.returned (some err), call.sent⟩
  | .returned (_, none) => ⟨.returned none, call.sent⟩

/-! ## Vocabulary of the statements -/

/-- Members of a JSON object; no member for any other document. -/
def docMembers : JValue → List (String × JValue)
  | .obj ms => ms
  | _ => []

/-- The document has a member `key` whose value is the string `s`, and every
member stored under `key` is that string (so none is a list). -/
def HasOnlyStringMember (key : String) (doc : JValue) (s : String) : Prop :=
  lookupMember key (docMembers doc) = some (.str s) ∧
    ∀ m ∈ docMembers doc, m.1 = key → m.2 = .str s

/-- The document has no member stored under `key`, of any shape. -/
def LacksMember (key : String) (doc : JValue) : Prop :=
  ∀ m ∈ docMembers doc, m.1 ≠ key

/-- The call `o` of client `c` passed exactly one request to `HTTPClient.Do`,
and the transport answered it with the response `resp` and a nil error. -/
def Answered {β : Type} (c : Client) (o : Outcome β) (resp : Response) : Prop :=
  ∃ req, o.sent = [req] ∧ c.HTTPClient req = (some resp, none)

/-- The call returned with a nil error (whatever value came with it). -/
def ReturnsNilError {α : Type} (o : Outcome (Option α × Option GoError)) : Prop :=
  ∃ v, o.ret = .returned (v, none)

/-- A transport that honours cancellation: a request whose context is already
cancelled gets no response and an error, as `http.Client` does. -/
def HonoursCancellation (t : httpClient) : Prop :=
  ∀ req, req.ctx.done = true → ∃ e, t req = (none, some e)

/-! ## Sample environment and clients -/

mutual
/-- Compact rendering of a JSON document for the samples: strings are written
between quotes as they are, which is what `json.Marshal` writes for strings
without characters to escape. -/
def renderSample : JValue → String
  | .null => "null"
  | .bool b => toString b
  | .int n => toString n
  | .float f => if f.isZero then "0" else "float64(" ++ toString f.bits ++ ")"
  | .str s => "\"" ++ s ++ "\""
  | .arr xs => "[" ++ renderSampleList xs ++ "]"
  | .obj ms => "\x7b" ++ renderSampleMembers ms ++ "\x7d"
/-- Elements of an array, separated by commas. -/
def renderSampleList : List JValue → String
  | [] => ""
  | [x] => renderSample x
  | x :: rest => renderSample x ++ "," ++ renderSampleList rest
/-- Members of an object, separated by commas. -/
def renderSampleMembers : List (String × JValue) → String
  | [] => ""
  | [(k, v)] => "\"" ++ k ++ "\":" ++ renderSample v
  | (k, v) :: rest => "\"" ++ k ++ "\":" ++ renderSample v ++ "," ++ renderSampleMembers rest
end

/-- A transport answering every request with the given status and body. -/
def fixedTransport (code : Int) (body : String) : httpClient :=
  fun _ => (some ⟨code, body⟩, none)

/-- A transport failing every request before any response arrives. -/
def refusingTransport : httpClient :=
  fun _ => (none, some (.lib "dial tcp: connection refused"))

/-- A transport that checks the request context first, then answers 200. -/
def cancelAwareTransport : httpClient :=
  fun req =>
    if req.ctx.done then (none, some (.lib "context canceled"))
    else (some ⟨200, ""⟩, none)

/-- Body of an empty mailbox listing. -/
def emptyMailboxesBody : String := "\x7b\"mailboxes\":[]\x7d"

/-- Sample library behaviour: `url.Parse` rejects a URL holding an ASCII
control character; the JSON syntax pass knows the empty listings and `null`. -/
def sampleEnv : Env where
  urlError := fun u =>
    if u.data.any (fun ch => decide (ch.toNat < 32) || ch.toNat == 127) then
      some (.lib "net/url: invalid control character in URL")
    else none
  defaultClient := fixedTransport 200 emptyMailboxesBody
  encode := renderSample
  parseJSON := fun s =>
    if s = emptyMailboxesBody then some (.obj [("mailboxes", .arr [])])
    else if s = "\x7b\"identities\":[]\x7d" then some (.obj [("identities", .arr [])])
    else if s = "\x7b\"address_aliases\":[]\x7d" then some (.obj [("address_aliases", .arr [])])
    else if s = "\x7b\"rewrites\":[]\x7d" then some (.obj [("rewrites", .arr [])])
    else if s = "null" then some .null
    else none
  equalFold := fun a b => a.data.map Char.toLower == b.data.map Char.toLower
  decMailbox := fun _ m => m
  decIdentity := fun _ i => i
  decAlias := fun _ a => a
  decRewrite := fun _ r => r

/-- A client of the domain example.com over the given transport. -/
def sampleClient (t : httpClient) : Client :=
  { Email := "admin@example.com", APIKey := "key", Domain := "example.com",
    BaseURL := "https://api.migadu.com/v1/domains/example.com", HTTPClient := t }

/-- The GET request `sampleClient t` builds for the path `mailboxes`. -/
def sampleGet : Request :=
  { ctx := ⟨false, some 120⟩, Method := "GET",
    URL := "https://api.migadu.com/v1/domains/example.com/mailboxes", Body := none,
    BasicAuth := some ("admin@example.com", "key") }

theorem lookupMember_eq_filter (k : String) (ms : List (String × JValue)) :
    lookupMember k ms = ((ms.filter (fun m => m.1 == k)).head?).map (fun m => m.2) := by
  induction ms with
  | nil => rfl
  | cons m rest ih =>
    obtain ⟨k1, v⟩ := m
    by_cases h : k1 = k
    · simp [lookupMember, h]
    · simp [lookupMember, h, ih]

theorem marshalFields_filter_key (fs : List Field) (k : String) :
    (marshalFields fs).filter (fun m => m.1 == k)
      = ((fs.filter (fun f => f.name == k)).filter
          (fun f => f.dominant fs && !(f.omitEmpty && f.empty))).map
            (fun f => (f.name, f.value)) := by
  simp only [marshalFields, List.filter_map, List.filter_filter]
  congr 1
  apply List.filter_congr
  intro f _
  simp [Function.comp, Bool.and_comm]

theorem hasOnlyStringMember_of_filter (key : String) (doc : JValue) (s : String)
    (h : (docMembers doc).filter (fun m => m.1 == key) = [(key, .str s)]) :
    HasOnlyStringMember key doc s := by
  refine ⟨by rw [lookupMember_eq_filter, h]; rfl, ?_⟩
  intro m hm hk
  have hmem : m ∈ (docMembers doc).filter (fun m => m.1 == key) := by
    simp [List.mem_filter, hm, hk]
  rw [h] at hmem
  simp at hmem
  rw [hmem]

theorem lacksMember_of_filter (key : String) (doc : JValue)
    (h : (docMembers doc).filter (fun m => m.1 == key) = []) : LacksMember key doc := by
  intro m hm hk
  have hmem : m ∈ (docMembers doc).filter (fun m => m.1 == key) := by
    simp [List.mem_filter, hm, hk]
  rw [h] at hmem
  simp at hmem

theorem aliasJSON_dest_members (a : aliasJSON) :
    (marshalFields a.fields).filter (fun m => m.1 == "destinations")
      = if a.DestinationsJSON = "" then [] else [("destinations", .str a.DestinationsJSON)] := by
  rw [marshalFields_filter_key]
  simp [aliasJSON.fields, Alias.fields, Field.ofString, Field.ofBool, Field.ofStrings,
    Field.dominant, Field.beats, List.filter_cons]
  split <;> simp_all

theorem rewriteJSON_dest_members (r : rewriteJSON) :
    (marshalFields r.fields).filter (fun m => m.1 == "destinations")
      = if r.DestinationsJSON = "" then [] else [("destinations", .str r.DestinationsJSON)] := by
  rw [marshalFields_filter_key]
  simp [rewriteJSON.fields, Rewrite.fields, Field.ofString, Field.ofInt, Field.ofStrings,
    Field.dominant, Field.beats, List.filter_cons]
  split <;> simp_all

theorem aliasWriteDoc_dest_members (a : Alias) :
    (docMembers (aliasWriteDoc a)).filter (fun m => m.1 == "destinations")
      = if stringsJoin (Slice.elems a.Destinations) "," = "" then []
        else [("destinations", .str (stringsJoin (Slice.elems a.Destinations) ","))] := by
  simp only [aliasWriteDoc, aliasJSON.toJSON, docMembers, aliasJSON_dest_members,
    aliasJSON.convertDestinationsField]

theorem rewriteWriteDoc_dest_members (r : Rewrite) :
    (docMembers (rewriteWriteDoc r)).filter (fun m => m.1 == "destinations")
      = if stringsJoin (Slice.elems r.Destinations) "," = "" then []
        else [("destinations", .str (stringsJoin (Slice.elems r.Destinations) ","))] := by
  simp only [rewriteWriteDoc, rewriteJSON.toJSON, docMembers, rewriteJSON_dest_members,
    rewriteJSON.convertDestinationsField]

/-! ### strings.Join and strings.Split -/

theorem foldl_join_data (sep : String) (rest : List String) (s : String) :
    (rest.foldl (fun b x => b ++ sep ++ x) s).data
      = s.data ++ (rest.map (fun x => sep.data ++ x.data)).flatten := by
  induction rest generalizing s with
  | nil => simp
  | cons x xs ih => simp [ih, String.data_append, List.append_assoc]

theorem intercalate_cons_eq {α : Type} (sep hd : List α) (tl : List (List α)) :
    List.intercalate sep (hd :: tl) = hd ++ (tl.map (fun x => sep ++ x)).flatten := by
  induction tl generalizing hd with
  | nil => simp [List.intercalate]
  | cons y ys ih =>
    have := ih y
    simp only [List.intercalate] at this ⊢
    simp [List.intersperse, this]

theorem stringsJoin_data (l : List String) (sep : String) :
    (stringsJoin l sep).data = List.intercalate sep.data (l.map String.data) := by
  match l with
  | [] => simp [stringsJoin, List.intercalate]
  | [s] => simp [stringsJoin, List.intercalate]
  | s :: t :: rest =>
    simp only [stringsJoin, foldl_join_data, List.map_cons, intercalate_cons_eq]
    simp [Function.comp_def]

theorem stringsJoin_eq_empty_iff (l : List String) :
    stringsJoin l "," = "" ↔ l = [] ∨ l = [""] := by
  constructor
  · intro h
    match l with
    | [] => simp
    | [s] => simp [stringsJoin] at h; simp [h]
    | s :: t :: rest =>
      have h2 := congrArg String.data h
      rw [stringsJoin_data] at h2
      simp [intercalate_cons_eq] at h2
  · rintro (rfl | rfl) <;> rfl

theorem splitChars_ne_nil (sep : Char) (cs : List Char) : splitChars sep cs ≠ [] := by
  cases cs with
  | nil => simp [splitChars]
  | cons ch rest =>
    simp only [splitChars]
    split
    · simp
    · split <;> simp

theorem splitChars_of_not_mem (sep : Char) (cs : List Char) (h : sep ∉ cs) :
    splitChars sep cs = [cs] := by
  induction cs with
  | nil => rfl
  | cons ch rest ih =>
    have hne : ch ≠ sep := fun hEq => h (by simp [hEq])
    have hrest : sep ∉ rest := fun hm => h (List.mem_cons_of_mem _ hm)
    simp [splitChars, hne, ih hrest]

theorem splitChars_append_sep (sep : Char) (cs rest : List Char) (h : sep ∉ cs) :
    splitChars sep (cs ++ sep :: rest) = cs :: splitChars sep rest := by
  induction cs with
  | nil => simp [splitChars]
  | cons ch tl ih =>
    have hne : ch ≠ sep := fun hEq => h (by simp [hEq])
    have htl : sep ∉ tl := fun hm => h (List.mem_cons_of_mem _ hm)
    simp [splitChars, hne, ih htl]

theorem splitChars_intercalate (sep : Char) (ls : List (List Char)) (hne : ls ≠ [])
    (hc : ∀ l ∈ ls, sep ∉ l) : splitChars sep (List.intercalate [sep] ls) = ls := by
  induction ls with
  | nil => exact absurd rfl hne
  | cons hd tl ih =>
    cases tl with
    | nil =>
      simpa [List.intercalate] using splitChars_of_not_mem sep hd (hc hd (by simp))
    | cons hd2 tl2 =>
      have hrec := ih (by simp) (fun l hl => hc l (List.mem_cons_of_mem _ hl))
      rw [intercalate_cons_eq] at hrec ⊢
      simp only [List.map_cons, List.flatten_cons, List.singleton_append,
        List.cons_append, List.nil_append] at hrec ⊢
      rw [splitChars_append_sep sep hd _ (hc hd (by simp)), hrec]

theorem stringsSplit_stringsJoin (l : List String) (hne : l ≠ [])
    (hc : ∀ s ∈ l, ',' ∉ s.data) : stringsSplit (stringsJoin l ",") ',' = l := by
  unfold stringsSplit
  rw [stringsJoin_data]
  have h1 : (",":String).data = [','] := rfl
  rw [h1, splitChars_intercalate]
  · rw [List.map_map]
    exact (List.map_congr_left (fun s _ => rfl)).trans (List.map_id l)
  · simpa using hne
  · intro x hx
    simp only [List.mem_map] at hx
    obtain ⟨s, hs, rfl⟩ := hx
    exact hc s hs

/-! ### Requests of the Transport Core -/

theorem Get_sent_body (c : Client) (env : Env) (ctx : Context) (path : String) :
    ∀ req ∈ (c.Get env ctx path).sent,
      req = { ctx := ctx.WithTimeout 120, Method := "GET", URL := c.BaseURL ++ "/" ++ path,
              Body := none, BasicAuth := some (c.Email, c.APIKey) } := by
  intro req hreq
  simp only [Client.Get, NewRequestWithContext] at hreq
  split at hreq
  · simp at hreq
  · rename_i r err heq
    split at heq
    · simp at heq
    · simp only [Prod.mk.injEq, Option.some.injEq] at heq
      obtain ⟨rfl, rfl⟩ := heq
      simp only at hreq
      split at hreq
      · simp_all [Request.SetBasicAuth]
      · simp_all [Request.SetBasicAuth]
      · split at hreq <;> simp_all [Request.SetBasicAuth]

theorem Post_sent_body (c : Client) (env : Env) (ctx : Context) (path body : String) :
    ∀ req ∈ (c.Post env ctx path body).sent,
      req = { ctx := ctx.WithTimeout 120, Method := "POST", URL := c.BaseURL ++ "/" ++ path,
              Body := some body, BasicAuth := some (c.Email, c.APIKey),
              Header := [("Content-Type", "application/json")] } := by
  intro req hreq
  simp only [Client.Post, NewRequestWithContext] at hreq
  split at hreq
  · simp at hreq
  · rename_i r err heq
    split at heq
    · simp at heq
    · simp only [Prod.mk.injEq, Option.some.injEq] at heq
      obtain ⟨rfl, rfl⟩ := heq
      simp only at hreq
      split at hreq
      · simp_all [Request.SetBasicAuth, Request.HeaderAdd]
      · simp_all [Request.SetBasicAuth, Request.HeaderAdd]
      · split at hreq <;> simp_all [Request.SetBasicAuth, Request.HeaderAdd]

theorem Put_sent_body (c : Client) (env : Env) (ctx : Context) (path body : String) :
    ∀ req ∈ (c.Put env ctx path body).sent,
      req = { ctx := ctx.WithTimeout 120, Method := "PUT", URL := c.BaseURL ++ "/" ++ path,
              Body := some body, BasicAuth := some (c.Email, c.APIKey),
              Header := [("Content-Type", "application/json")] } := by
  intro req hreq
  simp only [Client.Put, NewRequestWithContext] at hreq
  split at hreq
  · simp at hreq
  · rename_i r err heq
    split at heq
    · simp at heq
    · simp only [Prod.mk.injEq, Option.some.injEq] at heq
      obtain ⟨rfl, rfl⟩ := heq
      simp only at hreq
      split at hreq
      · simp_all [Request.SetBasicAuth, Request.HeaderAdd]
      · simp_all [Request.SetBasicAuth, Request.HeaderAdd]
      · split at hreq <;> simp_all [Request.SetBasicAuth, Request.HeaderAdd]

theorem Delete_sent_body (c : Client) (env : Env) (ctx : Context) (path : String) :
    ∀ req ∈ (c.Delete env ctx path).sent,
      req = { ctx := ctx.WithTimeout 120, Method := "DELETE", URL := c.BaseURL ++ "/" ++ path,
              Body := none, BasicAuth := some (c.Email, c.APIKey) } := by
  intro req hreq
  simp only [Client.Delete, NewRequestWithContext] at hreq
  split at hreq
  · simp at hreq
  · rename_i r err heq
    split at heq
    · simp at heq
    · simp only [Prod.mk.injEq, Option.some.injEq] at heq
      obtain ⟨rfl, rfl⟩ := heq
      simp only at hreq
      split at hreq
      · simp_all [Request.SetBasicAuth]
      · simp_all [Request.SetBasicAuth]
      · split at hreq <;> simp_all [Request.SetBasicAuth]

/-- What `Get` returns once the transport has answered with a response. -/
theorem Get_ret_of_answered (c : Client) (env : Env) (ctx : Context) (path : String)
    (resp : Response) (h : Answered c (c.Get env ctx path) resp) :
    (c.Get env ctx path).ret =
      if resp.StatusCode ≠ 200 then
        .returned (none, some (.errorf
          ("status code " ++ toString resp.StatusCode ++ " is not 200")))
      else .returned (some resp, none) := by
  obtain ⟨req, hsent, hdo⟩ := h
  have hreq := Get_sent_body c env ctx path req (by rw [hsent]; simp)
  subst hreq
  simp only [Client.Get, NewRequestWithContext] at hsent ⊢
  cases hu : env.urlError (c.BaseURL ++ "/" ++ path) with
  | some e => simp [hu] at hsent
  | none =>
    simp [Request.SetBasicAuth, hdo]
    split <;> rfl

theorem Post_ret_of_answered (c : Client) (env : Env) (ctx : Context) (path body : String)
    (resp : Response) (h : Answered c (c.Post env ctx path body) resp) :
    (c.Post env ctx path body).ret =
      if resp.StatusCode ≠ 200 then
        .returned (none, some (.errorf
          ("Error: status code " ++ toString resp.StatusCode ++ " is not 200")))
      else .returned (some resp, none) := by
  obtain ⟨req, hsent, hdo⟩ := h
  have hreq := Post_sent_body c env ctx path body req (by rw [hsent]; simp)
  subst hreq
  simp only [Client.Post, NewRequestWithContext] at hsent ⊢
  cases hu : env.urlError (c.BaseURL ++ "/" ++ path) with
  | some e => simp [hu] at hsent
  | none =>
    simp [Request.SetBasicAuth, Request.HeaderAdd, hdo]
    split <;> rfl

theorem Put_ret_of_answered (c : Client) (env : Env) (ctx : Context) (path body : String)
    (resp : Response) (h : Answered c (c.Put env ctx path body) resp) :
    (c.Put env ctx path body).ret =
      if resp.StatusCode ≠ 200 then
        .returned (none, some (.errorf
          ("Error: status code " ++ toString resp.StatusCode ++ " is not 200")))
      else .returned (some resp, none) := by
  obtain ⟨req, hsent, hdo⟩ := h
  have hreq := Put_sent_body c env ctx path body req (by rw [hsent]; simp)
  subst hreq
  simp only [Client.Put, NewRequestWithContext] at hsent ⊢
  cases hu : env.urlError (c.BaseURL ++ "/" ++ path) with
  | some e => simp [hu] at hsent
  | none =>
    simp [Request.SetBasicAuth, Request.HeaderAdd, hdo]
    split <;> rfl

theorem Delete_ret_of_answered (c : Client) (env : Env) (ctx : Context) (path : String)
    (resp : Response) (h : Answered c (c.Delete env ctx path) resp) :
    (c.Delete env ctx path).ret =
      if resp.StatusCode ≠ 200 then
        .returned (none, some (.errorf
          ("Error: status code " ++ toString resp.StatusCode ++ " is not 200")))
      else .returned (some resp, none) := by
  obtain ⟨req, hsent, hdo⟩ := h
  have hreq := Delete_sent_body c env ctx path req (by rw [hsent]; simp)
  subst hreq
  simp only [Client.Delete, NewRequestWithContext] at hsent ⊢
  cases hu : env.urlError (c.BaseURL ++ "/" ++ path) with
  | some e => simp [hu] at hsent
  | none =>
    simp [Request.SetBasicAuth, hdo]
    split <;> rfl

/-! ### Resource operations in terms of their Transport Core call -/

theorem ListMailboxes_sent (c : Client) (env : Env) (ctx : Context) :
    (c.ListMailboxes env ctx).sent
      = (c.Get env ctx "mailboxes").sent := by
  simp only [Client.ListMailboxes]
  split <;> rfl

theorem ListMailboxes_ret_err (c : Client) (env : Env) (ctx : Context)
    (got : Option Response) (err : GoError)
    (h : (c.Get env ctx "mailboxes").ret
      = .returned (got, some err)) :
    (c.ListMailboxes env ctx).ret
      = .returned (none, some err) := by
  simp only [Client.ListMailboxes, h]

theorem ListMailboxes_ret_ok (c : Client) (env : Env) (ctx : Context)
    (resp : Response)
    (h : (c.Get env ctx "mailboxes").ret
      = .returned (some resp, none)) :
    (c.ListMailboxes env ctx).ret
      = .returned
          (some (jsonUnmarshal env (decodeEnvelope env "mailboxes" env.decMailbox {}) resp.Body
            none), none) := by
  simp only [Client.ListMailboxes, h, ReadAll]

theorem GetMailbox_sent (c : Client) (env : Env) (ctx : Context)
    (localPart : String) :
    (c.GetMailbox env ctx localPart).sent
      = (c.Get env ctx ("mailboxes/" ++ localPart)).sent := by
  simp only [Client.GetMailbox]
  split <;> rfl

theorem GetMailbox_ret_err (c : Client) (env : Env) (ctx : Context)
    (localPart : String)
    (got : Option Response) (err : GoError)
    (h : (c.Get env ctx ("mailboxes/" ++ localPart)).ret
      = .returned (got, some err)) :
    (c.GetMailbox env ctx localPart).ret
      = .returned (none, some err) := by
  simp only [Client.GetMailbox, h]

theorem GetMailbox_ret_ok (c : Client) (env : Env) (ctx : Context)
    (localPart : String)
    (resp : Response)
    (h : (c.Get env ctx ("mailboxes/" ++ localPart)).ret
      = .returned (some resp, none)) :
    (c.GetMailbox env ctx localPart).ret
      = .returned
          (some (jsonUnmarshal env env.decMailbox resp.Body {}), none) := by
  simp only [Client.GetMailbox, h, ReadAll]

theorem NewMailbox_sent (c : Client) (env : Env) (ctx : Context)
    (localPart displayName invitationEmail initialPassword : String) :
    (c.NewMailbox env ctx localPart displayName invitationEmail initialPassword).sent
      = (c.Post env ctx "mailboxes" (marshalBytes env (newMailboxValue localPart displayName
          invitationEmail initialPassword).toJSON)).sent := by
  simp only [Client.NewMailbox]
  split <;> rfl

theorem NewMailbox_ret_err (c : Client) (env : Env) (ctx : Context)
    (localPart displayName invitationEmail initialPassword : String)
    (got : Option Response) (err : GoError)
    (h : (c.Post env ctx "mailboxes" (marshalBytes env (newMailboxValue localPart displayName
          invitationEmail initialPassword).toJSON)).ret
      = .returned (got, some err)) :
    (c.NewMailbox env ctx localPart displayName invitationEmail initialPassword).ret
      = .returned (none, some err) := by
  simp only [Client.NewMailbox, h]

theorem NewMailbox_ret_ok (c : Client) (env : Env) (ctx : Context)
    (localPart displayName invitationEmail initialPassword : String)
    (resp : Response)
    (h : (c.Post env ctx "mailboxes" (marshalBytes env (newMailboxValue localPart displayName
          invitationEmail initialPassword).toJSON)).ret
      = .returned (some resp, none)) :
    (c.NewMailbox env ctx localPart displayName invitationEmail initialPassword).ret
      = .returned
          (some (jsonUnmarshal env env.decMailbox resp.Body (newMailboxValue localPart displayName
            invitationEmail initialPassword)), none) := by
  simp only [Client.NewMailbox, h, ReadAll]

theorem UpdateMailbox_sent (c : Client) (env : Env) (ctx : Context)
    (mb : Mailbox) :
    (c.UpdateMailbox env ctx mb).sent
      = (c.Put env ctx ("mailboxes/" ++ mb.LocalPart) (marshalBytes env mb.toJSON)).sent := by
  simp only [Client.UpdateMailbox]
  split <;> rfl

theorem UpdateMailbox_ret_err (c : Client) (env : Env) (ctx : Context)
    (mb : Mailbox)
    (got : Option Response) (err : GoError)
    (h : (c.Put env ctx ("mailboxes/" ++ mb.LocalPart) (marshalBytes env mb.toJSON)).ret
      = .returned (got, some err)) :
    (c.UpdateMailbox env ctx mb).ret
      = .returned (none, some err) := by
  simp only [Client.UpdateMailbox, h]

theorem UpdateMailbox_ret_ok (c : Client) (env : Env) (ctx : Context)
    (mb : Mailbox)
    (resp : Response)
    (h : (c.Put env ctx ("mailboxes/" ++ mb.LocalPart) (marshalBytes env mb.toJSON)).ret
      = .returned (some resp, none)) :
    (c.UpdateMailbox env ctx mb).ret
      = .returned
          (jsonUnmarshalPtr env env.decMailbox resp.Body mb, none) := by
  simp only [Client.UpdateMailbox, h, ReadAll]

theorem DeleteMailbox_sent (c : Client) (env : Env) (ctx : Context)
    (mb : Mailbox) :
    (c.DeleteMailbox env ctx mb).sent
      = (c.Delete env ctx ("mailboxes/" ++ mb.LocalPart)).sent := by
  simp only [Client.DeleteMailbox]
  split <;> rfl

theorem DeleteMailbox_ret_err (c : Client) (env : Env) (ctx : Context)
    (mb : Mailbox)
    (got : Option Response) (err : GoError)
    (h : (c.Delete env ctx ("mailboxes/" ++ mb.LocalPart)).ret
      = .returned (got, some err)) :
    (c.DeleteMailbox env ctx mb).ret = .returned (some err) := by
  simp only [Client.DeleteMailbox, h]

theorem ListIdentities_sent (c : Client) (env : Env) (ctx : Context)
    (mailbox : String) :
    (c.ListIdentities env ctx mailbox).sent
      = (c.Get env ctx ("mailboxes/" ++ mailbox ++ "/identities")).sent := by
  simp only [Client.ListIdentities]
  split <;> rfl

theorem ListIdentities_ret_err (c : Client) (env : Env) (ctx : Context)
    (mailbox : String)
    (got : Option Response) (err : GoError)
    (h : (c.Get env ctx ("mailboxes/" ++ mailbox ++ "/identities")).ret
      = .returned (got, some err)) :
    (c.ListIdentities env ctx mailbox).ret
      = .returned (none, some err) := by
  simp only [Client.ListIdentities, h]

theorem ListIdentities_ret_ok (c : Client) (env : Env) (ctx : Context)
    (mailbox : String)
    (resp : Response)
    (h : (c.Get env ctx ("mailboxes/" ++ mailbox ++ "/identities")).ret
      = .returned (some resp, none)) :
    (c.ListIdentities env ctx mailbox).ret
      = .returned
          (some (jsonUnmarshal env (decodeEnvelope env "identities" env.decIdentity {}) resp.Body
            none), none) := by
  simp only [Client.ListIdentities, h, ReadAll]

theorem GetIdentity_sent (c : Client) (env : Env) (ctx : Context)
    (mailbox localPart : String) :
    (c.GetIdentity env ctx mailbox localPart).sent
      = (c.Get env ctx ("mailboxes/" ++ mailbox ++ "/identities/" ++ localPart)).sent := by
  simp only [Client.GetIdentity]
  split <;> rfl

theorem GetIdentity_ret_err (c : Client) (env : Env) (ctx : Context)
    (mailbox localPart : String)
    (got : Option Response) (err : GoError)
    (h : (c.Get env ctx ("mailboxes/" ++ mailbox ++ "/identities/" ++ localPart)).ret
      = .returned (got, some err)) :
    (c.GetIdentity env ctx mailbox localPart).ret
      = .returned (none, some err) := by
  simp only [Client.GetIdentity, h]

theorem GetIdentity_ret_ok (c : Client) (env : Env) (ctx : Context)
    (mailbox localPart : String)
    (resp : Response)
    (h : (c.Get env ctx ("mailboxes/" ++ mailbox ++ "/identities/" ++ localPart)).ret
      = .returned (some resp, none)) :
    (c.GetIdentity env ctx mailbox localPart).ret
      = .returned
          (some (jsonUnmarshal env env.decIdentity resp.Body {}), none) := by
  simp only [Client.GetIdentity, h, ReadAll]

theorem NewIdentity_sent (c : Client) (env : Env) (ctx : Context)
    (mailbox localPart displayName : String) :
    (c.NewIdentity env ctx mailbox localPart displayName).sent
      = (c.Post env ctx ("mailboxes/" ++ mailbox ++ "/identities") (marshalBytes env (some
          (Identity.toJSON { LocalPart := localPart, Name := displayName })))).sent := by
  simp only [Client.NewIdentity]
  split <;> rfl

theorem NewIdentity_ret_err (c : Client) (env : Env) (ctx : Context)
    (mailbox localPart displayName : String)
    (got : Option Response) (err : GoError)
    (h : (c.Post env ctx ("mailboxes/" ++ mailbox ++ "/identities") (marshalBytes env (some
          (Identity.toJSON { LocalPart := localPart, Name := displayName })))).ret
      = .returned (got, some err)) :
    (c.NewIdentity env ctx mailbox localPart displayName).ret
      = .returned (none, some err) := by
  simp only [Client.NewIdentity, h]

theorem NewIdentity_ret_ok (c : Client) (env : Env) (ctx : Context)
    (mailbox localPart displayName : String)
    (resp : Response)
    (h : (c.Post env ctx ("mailboxes/" ++ mailbox ++ "/identities") (marshalBytes env (some
          (Identity.toJSON { LocalPart := localPart, Name := displayName })))).ret
      = .returned (some resp, none)) :
    (c.NewIdentity env ctx mailbox localPart displayName).ret
      = .returned
          (some (jsonUnmarshal env env.decIdentity resp.Body
            { LocalPart := localPart, Name := displayName }), none) := by
  simp only [Client.NewIdentity, h, ReadAll]

theorem UpdateIdentity_sent (c : Client) (env : Env) (ctx : Context)
    (mailbox : String) (i : Identity) :
    (c.UpdateIdentity env ctx mailbox i).sent
      = (c.Put env ctx ("mailboxes/" ++ mailbox ++ "/identities/" ++ i.LocalPart) (marshalBytes
          env (some i.toJSON))).sent := by
  simp only [Client.UpdateIdentity]
  split <;> rfl

theorem UpdateIdentity_ret_err (c : Client) (env : Env) (ctx : Context)
    (mailbox : String) (i : Identity)
    (got : Option Response) (err : GoError)
    (h : (c.Put env ctx ("mailboxes/" ++ mailbox ++ "/identities/" ++ i.LocalPart) (marshalBytes
          env (some i.toJSON))).ret
      = .returned (got, some err)) :
    (c.UpdateIdentity env ctx mailbox i).ret
      = .returned (none, some err) := by
  simp only [Client.UpdateIdentity, h]

theorem UpdateIdentity_ret_ok (c : Client) (env : Env) (ctx : Context)
    (mailbox : String) (i : Identity)
    (resp : Response)
    (h : (c.Put env ctx ("mailboxes/" ++ mailbox ++ "/identities/" ++ i.LocalPart) (marshalBytes
          env (some i.toJSON))).ret
      = .returned (some resp, none)) :
    (c.UpdateIdentity env ctx mailbox i).ret
      = .returned
          (jsonUnmarshalPtr env env.decIdentity resp.Body i, none) := by
  simp only [Client.UpdateIdentity, h, ReadAll]

theorem DeleteIdentity_sent (c : Client) (env : Env) (ctx : Context)
    (mailbox : String) (i : Identity) :
    (c.DeleteIdentity env ctx mailbox i).sent
      = (c.Delete env ctx ("mailboxes/" ++ mailbox ++ "/identities/" ++ i.LocalPart)).sent := by
  simp only [Client.DeleteIdentity]
  split <;> rfl

theorem DeleteIdentity_ret_err (c : Client) (env : Env) (ctx : Context)
    (mailbox : String) (i : Identity)
    (got : Option Response) (err : GoError)
    (h : (c.Delete env ctx ("mailboxes/" ++ mailbox ++ "/identities/" ++ i.LocalPart)).ret
      = .returned (got, some err)) :
    (c.DeleteIdentity env ctx mailbox i).ret = .returned (some err) := by
  simp only [Client.DeleteIdentity, h]

theorem ListAliases_sent (c : Client) (env : Env) (ctx : Context) :
    (c.ListAliases env ctx).sent
      = (c.Get env ctx "aliases").sent := by
  simp only [Client.ListAliases]
  split <;> rfl

theorem ListAliases_ret_err (c : Client) (env : Env) (ctx : Context)
    (got : Option Response) (err : GoError)
    (h : (c.Get env ctx "aliases").ret
      = .returned (got, some err)) :
    (c.ListAliases env ctx).ret
      = .returned (none, some err) := by
  simp only [Client.ListAliases, h]

theorem ListAliases_ret_ok (c : Client) (env : Env) (ctx : Context)
    (resp : Response)
    (h : (c.Get env ctx "aliases").ret
      = .returned (some resp, none)) :
    (c.ListAliases env ctx).ret
      = .returned
          (some (jsonUnmarshal env (decodeEnvelope env "address_aliases" env.decAlias {})
            resp.Body none), none) := by
  simp only [Client.ListAliases, h, ReadAll]

theorem GetAlias_sent (c : Client) (env : Env) (ctx : Context)
    (localPart : String) :
    (c.GetAlias env ctx localPart).sent
      = (c.Get env ctx ("aliases/" ++ localPart)).sent := by
  simp only [Client.GetAlias]
  split <;> rfl

theorem GetAlias_ret_err (c : Client) (env : Env) (ctx : Context)
    (localPart : String)
    (got : Option Response) (err : GoError)
    (h : (c.Get env ctx ("aliases/" ++ localPart)).ret
      = .returned (got, some err)) :
    (c.GetAlias env ctx localPart).ret
      = .returned (none, some err) := by
  simp only [Client.GetAlias, h]

theorem GetAlias_ret_ok (c : Client) (env : Env) (ctx : Context)
    (localPart : String)
    (resp : Response)
    (h : (c.Get env ctx ("aliases/" ++ localPart)).ret
      = .returned (some resp, none)) :
    (c.GetAlias env ctx localPart).ret
      = .returned
          (some (jsonUnmarshal env env.decAlias resp.Body {}), none) := by
  simp only [Client.GetAlias, h, ReadAll]

theorem NewAlias_sent (c : Client) (env : Env) (ctx : Context)
    (localPart : String) (destinations : Slice String) :
    (c.NewAlias env ctx localPart destinations).sent
      = (c.Post env ctx "aliases" (marshalBytes env (some (aliasWriteDoc
          { LocalPart := localPart, Destinations := destinations })))).sent := by
  simp only [Client.NewAlias]
  split <;> rfl

theorem NewAlias_ret_err (c : Client) (env : Env) (ctx : Context)
    (localPart : String) (destinations : Slice String)
    (got : Option Response) (err : GoError)
    (h : (c.Post env ctx "aliases" (marshalBytes env (some (aliasWriteDoc
          { LocalPart := localPart, Destinations := destinations })))).ret
      = .returned (got, some err)) :
    (c.NewAlias env ctx localPart destinations).ret
      = .returned (none, some err) := by
  simp only [Client.NewAlias, h]

theorem NewAlias_ret_ok (c : Client) (env : Env) (ctx : Context)
    (localPart : String) (destinations : Slice String)
    (resp : Response)
    (h : (c.Post env ctx "aliases" (marshalBytes env (some (aliasWriteDoc
          { LocalPart := localPart, Destinations := destinations })))).ret
      = .returned (some resp, none)) :
    (c.NewAlias env ctx localPart destinations).ret
      = .returned
          (some (jsonUnmarshal env env.decAlias resp.Body
            { LocalPart := localPart, Destinations := destinations }), none) := by
  simp only [Client.NewAlias, h, ReadAll]

theorem UpdateAlias_sent (c : Client) (env : Env) (ctx : Context)
    (a : Alias) :
    (c.UpdateAlias env ctx a).sent
      = (c.Put env ctx ("aliases/" ++ a.LocalPart) (marshalBytes env (some (aliasWriteDoc a)))).sent := by
  simp only [Client.UpdateAlias]
  split <;> rfl

theorem UpdateAlias_ret_err (c : Client) (env : Env) (ctx : Context)
    (a : Alias)
    (got : Option Response) (err : GoError)
    (h : (c.Put env ctx ("aliases/" ++ a.LocalPart) (marshalBytes env (some (aliasWriteDoc a)))).ret
      = .returned (got, some err)) :
    (c.UpdateAlias env ctx a).ret
      = .returned (none, some err) := by
  simp only [Client.UpdateAlias, h]

theorem UpdateAlias_ret_ok (c : Client) (env : Env) (ctx : Context)
    (a : Alias)
    (resp : Response)
    (h : (c.Put env ctx ("aliases/" ++ a.LocalPart) (marshalBytes env (some (aliasWriteDoc a)))).ret
      = .returned (some resp, none)) :
    (c.UpdateAlias env ctx a).ret
      = .returned
          (jsonUnmarshalPtr env env.decAlias resp.Body a, none) := by
  simp only [Client.UpdateAlias, h, ReadAll]

theorem DeleteAlias_sent (c : Client) (env : Env) (ctx : Context)
    (a : Alias) :
    (c.DeleteAlias env ctx a).sent
      = (c.Delete env ctx ("aliases/" ++ a.LocalPart)).sent := by
  simp only [Client.DeleteAlias]
  split <;> rfl

theorem DeleteAlias_ret_err (c : Client) (env : Env) (ctx : Context)
    (a : Alias)
    (got : Option Response) (err : GoError)
    (h : (c.Delete env ctx ("aliases/" ++ a.LocalPart)).ret
      = .returned (got, some err)) :
    (c.DeleteAlias env ctx a).ret = .returned (some err) := by
  simp only [Client.DeleteAlias, h]

theorem ListRewrites_sent (c : Client) (env : Env) (ctx : Context) :
    (c.ListRewrites env ctx).sent
      = (c.Get env ctx "rewrites").sent := by
  simp only [Client.ListRewrites]
  split <;> rfl

theorem ListRewrites_ret_err (c : Client) (env : Env) (ctx : Context)
    (got : Option Response) (err : GoError)
    (h : (c.Get env ctx "rewrites").ret
      = .returned (got, some err)) :
    (c.ListRewrites env ctx).ret
      = .returned (none, some err) := by
  simp only [Client.ListRewrites, h]

theorem ListRewrites_ret_ok (c : Client) (env : Env) (ctx : Context)
    (resp : Response)
    (h : (c.Get env ctx "rewrites").ret
      = .returned (some resp, none)) :
    (c.ListRewrites env ctx).ret
      = .returned
          (some (jsonUnmarshal env (decodeEnvelope env "rewrites" env.decRewrite {}) resp.Body
            none), none) := by
  simp only [Client.ListRewrites, h, ReadAll]

theorem GetRewrite_sent (c : Client) (env : Env) (ctx : Context)
    (name : String) :
    (c.GetRewrite env ctx name).sent
      = (c.Get env ctx ("rewrites/" ++ name)).sent := by
  simp only [Client.GetRewrite]
  split <;> rfl

theorem GetRewrite_ret_err (c : Client) (env : Env) (ctx : Context)
    (name : String)
    (got : Option Response) (err : GoError)
    (h : (c.Get env ctx ("rewrites/" ++ name)).ret
      = .returned (got, some err)) :
    (c.GetRewrite env ctx name).ret
      = .returned (none, some err) := by
  simp only [Client.GetRewrite, h]

theorem GetRewrite_ret_ok (c : Client) (env : Env) (ctx : Context)
    (name : String)
    (resp : Response)
    (h : (c.Get env ctx ("rewrites/" ++ name)).ret
      = .returned (some resp, none)) :
    (c.GetRewrite env ctx name).ret
      = .returned
          (some (jsonUnmarshal env env.decRewrite resp.Body {}), none) := by
  simp only [Client.GetRewrite, h, ReadAll]

theorem NewRewrite_sent (c : Client) (env : Env) (ctx : Context)
    (name localPartRule : String) (destinations : Slice String) :
    (c.NewRewrite env ctx name localPartRule destinations).sent
      = (c.Post env ctx "rewrites" (marshalBytes env (some (rewriteWriteDoc
          { Name := name, LocalPartRule := localPartRule, Destinations := destinations })))).sent := by
  simp only [Client.NewRewrite]
  split <;> rfl

theorem NewRewrite_ret_err (c : Client) (env : Env) (ctx : Context)
    (name localPartRule : String) (destinations : Slice String)
    (got : Option Response) (err : GoError)
    (h : (c.Post env ctx "rewrites" (marshalBytes env (some (rewriteWriteDoc
          { Name := name, LocalPartRule := localPartRule, Destinations := destinations })))).ret
      = .returned (got, some err)) :
    (c.NewRewrite env ctx name localPartRule destinations).ret
      = .returned (none, some err) := by
  simp only [Client.NewRewrite, h]

theorem NewRewrite_ret_ok (c : Client) (env : Env) (ctx : Context)
    (name localPartRule : String) (destinations : Slice String)
    (resp : Response)
    (h : (c.Post env ctx "rewrites" (marshalBytes env (some (rewriteWriteDoc
          { Name := name, LocalPartRule := localPartRule, Destinations := destinations })))).ret
      = .returned (some resp, none)) :
    (c.NewRewrite env ctx name localPartRule destinations).ret
      = .returned
          (some (jsonUnmarshal env env.decRewrite resp.Body
            { Name := name, LocalPartRule := localPartRule, Destinations := destinations }), none) := by
  simp only [Client.NewRewrite, h, ReadAll]

theorem UpdateRewrite_sent (c : Client) (env : Env) (ctx : Context)
    (r : Rewrite) :
    (c.UpdateRewrite env ctx r).sent
      = (c.Put env ctx ("rewrites/" ++ r.Name) (marshalBytes env (some (rewriteWriteDoc r)))).sent := by
  simp only [Client.UpdateRewrite]
  split <;> rfl

theorem UpdateRewrite_ret_err (c : Client) (env : Env) (ctx : Context)
    (r : Rewrite)
    (got : Option Response) (err : GoError)
    (h : (c.Put env ctx ("rewrites/" ++ r.Name) (marshalBytes env (some (rewriteWriteDoc r)))).ret
      = .returned (got, some err)) :
    (c.UpdateRewrite env ctx r).ret
      = .returned (none, some err) := by
  simp only [Client.UpdateRewrite, h]

theorem UpdateRewrite_ret_ok (c : Client) (env : Env) (ctx : Context)
    (r : Rewrite)
    (resp : Response)
    (h : (c.Put env ctx ("rewrites/" ++ r.Name) (marshalBytes env (some (rewriteWriteDoc r)))).ret
      = .returned (some resp, none)) :
    (c.UpdateRewrite env ctx r).ret
      = .returned
          (jsonUnmarshalPtr env env.decRewrite resp.Body r, none) := by
  simp only [Client.UpdateRewrite, h, ReadAll]

theorem DeleteRewrite_sent (c : Client) (env : Env) (ctx : Context)
    (r : Rewrite) :
    (c.DeleteRewrite env ctx r).sent
      = (c.Delete env ctx ("rewrites/" ++ r.Name)).sent := by
  simp only [Client.DeleteRewrite]
  split <;> rfl

theorem DeleteRewrite_ret_err (c : Client) (env : Env) (ctx : Context)
    (r : Rewrite)
    (got : Option Response) (err : GoError)
    (h : (c.Delete env ctx ("rewrites/" ++ r.Name)).ret
      = .returned (got, some err)) :
    (c.DeleteRewrite env ctx r).ret = .returned (some err) := by
  simp only [Client.DeleteRewrite, h]

/-! ### Lemmas: the payload of NewMailbox -/

theorem mailbox_member_local_part (m : Mailbox) :
    (marshalFields (m.fields [])).filter (fun x => x.1 == "local_part")
      = if m.LocalPart = "" then [] else [("local_part", .str m.LocalPart)] := by
  rw [marshalFields_filter_key]
  simp [Mailbox.fields, Field.ofString, Field.ofBool, Field.ofStrings, Field.ofFloat,
    Field.dominant, Field.beats, List.filter_cons]
  split <;> simp_all

theorem mailbox_member_name (m : Mailbox) :
    (marshalFields (m.fields [])).filter (fun x => x.1 == "name")
      = if m.Name = "" then [] else [("name", .str m.Name)] := by
  rw [marshalFields_filter_key]
  simp [Mailbox.fields, Field.ofString, Field.ofBool, Field.ofStrings, Field.ofFloat,
    Field.dominant, Field.beats, List.filter_cons]
  split <;> simp_all

theorem mailbox_member_password (m : Mailbox) :
    (marshalFields (m.fields [])).filter (fun x => x.1 == "password")
      = if m.Password = "" then [] else [("password", .str m.Password)] := by
  rw [marshalFields_filter_key]
  simp [Mailbox.fields, Field.ofString, Field.ofBool, Field.ofStrings, Field.ofFloat,
    Field.dominant, Field.beats, List.filter_cons]
  split <;> simp_all

theorem mailbox_member_password_method (m : Mailbox) :
    (marshalFields (m.fields [])).filter (fun x => x.1 == "password_method")
      = if m.PasswordMethod = "" then [] else [("password_method", .str m.PasswordMethod)] := by
  rw [marshalFields_filter_key]
  simp [Mailbox.fields, Field.ofString, Field.ofBool, Field.ofStrings, Field.ofFloat,
    Field.dominant, Field.beats, List.filter_cons]
  split <;> simp_all

theorem mailbox_member_recovery_email (m : Mailbox) :
    (marshalFields (m.fields [])).filter (fun x => x.1 == "password_recovery_email")
      = if m.PasswordRecoveryEmail = "" then []
        else [("password_recovery_email", .str m.PasswordRecoveryEmail)] := by
  rw [marshalFields_filter_key]
  simp [Mailbox.fields, Field.ofString, Field.ofBool, Field.ofStrings, Field.ofFloat,
    Field.dominant, Field.beats, List.filter_cons]
  split <;> simp_all

theorem newMailboxValue_toJSON (localPart displayName invitationEmail initialPassword : String) :
    (newMailboxValue localPart displayName invitationEmail initialPassword).toJSON
      = some (.obj (marshalFields
          ((newMailboxValue localPart displayName invitationEmail initialPassword).fields []))) := by
  unfold Mailbox.toJSON newMailboxValue
  split <;> rfl

/-! ### Lemmas: listing an empty collection -/

theorem Get_of_built (c : Client) (env : Env) (ctx : Context) (path : String)
    (hu : env.urlError (c.BaseURL ++ "/" ++ path) = none) :
    ∃ req, (c.Get env ctx path).sent = [req] ∧ req.ctx = ctx.WithTimeout 120 ∧
      ∀ e, c.HTTPClient req = (none, some e) →
        (c.Get env ctx path).ret = .returned (none, some e) := by
  simp only [Client.Get, NewRequestWithContext, hu, Request.SetBasicAuth]
  refine ⟨
    { ctx := ctx.WithTimeout 120, Method := "GET", URL := c.BaseURL ++ "/" ++ path,
      Body := none, BasicAuth := some (c.Email, c.APIKey) },
    ?_, ?_, ?_⟩
  · split
    · rfl
    · rfl
    · split <;> rfl
  · rfl
  · intro e he
    simp only [he]

theorem Post_of_built (c : Client) (env : Env) (ctx : Context) (path body : String)
    (hu : env.urlError (c.BaseURL ++ "/" ++ path) = none) :
    ∃ req, (c.Post env ctx path body).sent = [req] ∧ req.ctx = ctx.WithTimeout 120 ∧
      ∀ e, c.HTTPClient req = (none, some e) →
        (c.Post env ctx path body).ret = .returned (none, some e) := by
  simp only [Client.Post, NewRequestWithContext, hu, Request.SetBasicAuth, Request.HeaderAdd, List.nil_append]
  refine ⟨
    { ctx := ctx.WithTimeout 120, Method := "POST", URL := c.BaseURL ++ "/" ++ path,
      Body := some body, BasicAuth := some (c.Email, c.APIKey),
      Header := [("Content-Type", "application/json")] },
    ?_, ?_, ?_⟩
  · split
    · rfl
    · rfl
    · split <;> rfl
  · rfl
  · intro e he
    simp only [he]

theorem Put_of_built (c : Client) (env : Env) (ctx : Context) (path body : String)
    (hu : env.urlError (c.BaseURL ++ "/" ++ path) = none) :
    ∃ req, (c.Put env ctx path body).sent = [req] ∧ req.ctx = ctx.WithTimeout 120 ∧
      ∀ e, c.HTTPClient req = (none, some e) →
        (c.Put env ctx path body).ret = .returned (none, some e) := by
  simp only [Client.Put, NewRequestWithContext, hu, Request.SetBasicAuth, Request.HeaderAdd, List.nil_append]
  refine ⟨
    { ctx := ctx.WithTimeout 120, Method := "PUT", URL := c.BaseURL ++ "/" ++ path,
      Body := some body, BasicAuth := some (c.Email, c.APIKey),
      Header := [("Content-Type", "application/json")] },
    ?_, ?_, ?_⟩
  · split
    · rfl
    · rfl
    · split <;> rfl
  · rfl
  · intro e he
    simp only [he]

theorem Delete_of_built (c : Client) (env : Env) (ctx : Context) (path : String)
    (hu : env.urlError (c.BaseURL ++ "/" ++ path) = none) :
    ∃ req, (c.Delete env ctx path).sent = [req] ∧ req.ctx = ctx.WithTimeout 120 ∧
      ∀ e, c.HTTPClient req = (none, some e) →
        (c.Delete env ctx path).ret = .returned (none, some e) := by
  simp only [Client.Delete, NewRequestWithContext, hu, Request.SetBasicAuth]
  refine ⟨
    { ctx := ctx.WithTimeout 120, Method := "DELETE", URL := c.BaseURL ++ "/" ++ path,
      Body := none, BasicAuth := some (c.Email, c.APIKey) },
    ?_, ?_, ?_⟩
  · split
    · rfl
    · rfl
    · split <;> rfl
  · rfl
  · intro e he
    simp only [he]

theorem cancelAwareTransport_honours : HonoursCancellation cancelAwareTransport := by
  intro req hreq
  exact ⟨.lib "context canceled", by simp [cancelAwareTransport, hreq]⟩

/-! ### C1: the joined destinations of a write payload -/

/-- C1 (counterexample): the destination list holding one empty address is
non-empty, yet it joins to the empty string, `omitempty` drops that string, and
the write payload of the alias and of the rewrite has no destinations field. -/
theorem C1_nonempty_list_without_field :
    Slice.elems (some [""]) ≠ ([] : List String) ∧
    aliasWriteDoc { LocalPart := "support", Destinations := some [""] }
      = .obj [("local_part", .str "support")] ∧
    rewriteWriteDoc { Name := "catchall", Destinations := some [""] }
      = .obj [("name", .str "catchall")] ∧
    ¬ HasOnlyStringMember "destinations"
        (aliasWriteDoc { LocalPart := "support", Destinations := some [""] })
        (stringsJoin (Slice.elems (some [""])) ",") := by
  refine ⟨by decide, rfl, rfl, ?_⟩
  intro h
  have h1 := h.1
  rw [lookupMember_eq_filter, aliasWriteDoc_dest_members] at h1
  simp [Slice.elems, stringsJoin] at h1

/-- C1 (amended): for a destination list `d` that is non-empty and is not the
one-element list holding the empty address, the document written for an Alias
or a Rewrite with destinations `d` has a `destinations` member equal to the
addresses joined in order with a comma, no member under that key is a list, and
that document is the body of every request NewAlias, UpdateAlias, NewRewrite
and UpdateRewrite pass to the transport. -/
theorem C1_write_payload_joined_destinations (c : Client) (env : Env) (ctx : Context)
    (d : Slice String) (hne : Slice.elems d ≠ []) (hne1 : Slice.elems d ≠ [""]) :
    (∀ a : Alias, a.Destinations = d →
      HasOnlyStringMember "destinations" (aliasWriteDoc a) (stringsJoin (Slice.elems d) ",")) ∧
    (∀ r : Rewrite, r.Destinations = d →
      HasOnlyStringMember "destinations" (rewriteWriteDoc r) (stringsJoin (Slice.elems d) ",")) ∧
    (∀ localPart, ∀ req ∈ (c.NewAlias env ctx localPart d).sent,
      req.Body = some (env.encode (aliasWriteDoc { LocalPart := localPart, Destinations := d }))) ∧
    (∀ a : Alias, a.Destinations = d → ∀ req ∈ (c.UpdateAlias env ctx a).sent,
      req.Body = some (env.encode (aliasWriteDoc a))) ∧
    (∀ name localPartRule, ∀ req ∈ (c.NewRewrite env ctx name localPartRule d).sent,
      req.Body = some (env.encode (rewriteWriteDoc
        { Name := name, LocalPartRule := localPartRule, Destinations := d }))) ∧
    (∀ r : Rewrite, r.Destinations = d → ∀ req ∈ (c.UpdateRewrite env ctx r).sent,
      req.Body = some (env.encode (rewriteWriteDoc r))) := by
  have hj : stringsJoin (Slice.elems d) "," ≠ "" := by
    intro h
    rcases (stringsJoin_eq_empty_iff _).1 h with h | h
    · exact hne h
    · exact hne1 h
  refine ⟨?_, ?_, ?_, ?_, ?_, ?_⟩
  · intro a ha
    apply hasOnlyStringMember_of_filter
    rw [aliasWriteDoc_dest_members, ha, if_neg hj]
  · intro r hr
    apply hasOnlyStringMember_of_filter
    rw [rewriteWriteDoc_dest_members, hr, if_neg hj]
  · intro localPart req hreq
    rw [NewAlias_sent] at hreq
    rw [Post_sent_body _ _ _ _ _ req hreq]
    rfl
  · intro a _ req hreq
    rw [UpdateAlias_sent] at hreq
    rw [Put_sent_body _ _ _ _ _ req hreq]
    rfl
  · intro name localPartRule req hreq
    rw [NewRewrite_sent] at hreq
    rw [Post_sent_body _ _ _ _ _ req hreq]
    rfl
  · intro r _ req hreq
    rw [UpdateRewrite_sent] at hreq
    rw [Put_sent_body _ _ _ _ _ req hreq]
    rfl

/-- C1 (witness): the list of the spec's example, and the body NewAlias sends
for it under the sample rendering. -/
theorem C1_write_payload_joined_destinations_witness :
    HasOnlyStringMember "destinations"
      (aliasWriteDoc { LocalPart := "support", Destinations := some ["a@x.com", "b@x.com"] })
      "a@x.com,b@x.com" ∧
    ((sampleClient refusingTransport).NewAlias sampleEnv Context.Background "support"
        (some ["a@x.com", "b@x.com"])).sent.map Request.Body
      = [some "\x7b\"local_part\":\"support\",\"destinations\":\"a@x.com,b@x.com\"\x7d"] :=
  ⟨(C1_write_payload_joined_destinations (sampleClient refusingTransport) sampleEnv
      Context.Background (some ["a@x.com", "b@x.com"]) (by decide) (by decide)).1
      { LocalPart := "support", Destinations := some ["a@x.com", "b@x.com"] } rfl,
    rfl⟩

/-! ### C2: the success contract of the Transport Core -/

/-- C2: for Get, Post, Put and Delete, once the transport has answered the
call's request with a response and a nil error, the call returns that response
with a nil error if and only if the status code is 200, and for any other code
it returns no response and an error whose message spells the observed code. -/
theorem C2_only_status_200_succeeds (c : Client) (env : Env) (ctx : Context)
    (path body : String) (resp : Response) :
    (Answered c (c.Get env ctx path) resp →
      ((c.Get env ctx path).ret = .returned (some resp, none) ↔ resp.StatusCode = 200) ∧
      (resp.StatusCode ≠ 200 → ∃ e, (c.Get env ctx path).ret = .returned (none, some e) ∧
        e.message = "status code " ++ toString resp.StatusCode ++ " is not 200")) ∧
    (Answered c (c.Post env ctx path body) resp →
      ((c.Post env ctx path body).ret = .returned (some resp, none) ↔ resp.StatusCode = 200) ∧
      (resp.StatusCode ≠ 200 → ∃ e, (c.Post env ctx path body).ret = .returned (none, some e) ∧
        e.message = "Error: status code " ++ toString resp.StatusCode ++ " is not 200")) ∧
    (Answered c (c.Put env ctx path body) resp →
      ((c.Put env ctx path body).ret = .returned (some resp, none) ↔ resp.StatusCode = 200) ∧
      (resp.StatusCode ≠ 200 → ∃ e, (c.Put env ctx path body).ret = .returned (none, some e) ∧
        e.message = "Error: status code " ++ toString resp.StatusCode ++ " is not 200")) ∧
    (Answered c (c.Delete env ctx path) resp →
      ((c.Delete env ctx path).ret = .returned (some resp, none) ↔ resp.StatusCode = 200) ∧
      (resp.StatusCode ≠ 200 → ∃ e, (c.Delete env ctx path).ret = .returned (none, some e) ∧
        e.message = "Error: status code " ++ toString resp.StatusCode ++ " is not 200")) := by
  refine ⟨?_, ?_, ?_, ?_⟩
  · intro h
    have hr := Get_ret_of_answered c env ctx path resp h
    by_cases h200 : resp.StatusCode = 200
    · simp [hr, h200]
    · simp [hr, h200, GoError.message]
  · intro h
    have hr := Post_ret_of_answered c env ctx path body resp h
    by_cases h200 : resp.StatusCode = 200
    · simp [hr, h200]
    · simp [hr, h200, GoError.message]
  · intro h
    have hr := Put_ret_of_answered c env ctx path body resp h
    by_cases h200 : resp.StatusCode = 200
    · simp [hr, h200]
    · simp [hr, h200, GoError.message]
  · intro h
    have hr := Delete_ret_of_answered c env ctx path resp h
    by_cases h200 : resp.StatusCode = 200
    · simp [hr, h200]
    · simp [hr, h200, GoError.message]

/-- C2 (witness): a transport answering 201 Created makes Get fail. -/
theorem C2_only_status_200_succeeds_witness :
    Answered (sampleClient (fixedTransport 201 ""))
      ((sampleClient (fixedTransport 201 "")).Get sampleEnv Context.Background "mailboxes")
      ⟨201, ""⟩ ∧
    ∃ e, ((sampleClient (fixedTransport 201 "")).Get sampleEnv Context.Background
        "mailboxes").ret = .returned (none, some e) ∧
      e.message = "status code 201 is not 200" :=
  have h : Answered (sampleClient (fixedTransport 201 ""))
      ((sampleClient (fixedTransport 201 "")).Get sampleEnv Context.Background "mailboxes")
      ⟨201, ""⟩ := ⟨sampleGet, rfl, rfl⟩
  ⟨h, ((C2_only_status_200_succeeds (sampleClient (fixedTransport 201 "")) sampleEnv
    Context.Background "mailboxes" "" ⟨201, ""⟩).1 h).2 (by decide)⟩

/-! ### C3: propagation of Transport Core errors -/

/-- C3: for each of the twenty Resource Client operations, whenever the
Transport Core call it makes returns an error `err` (whatever response value
came with it), the operation returns that same error value `err`, not wrapped,
and a nil entity pointer (Delete operations return just `err`). -/
theorem C3_transport_errors_propagate (c : Client) (env : Env) (ctx : Context)
    (got : Option Response) (err : GoError) :
    ((c.Get env ctx "mailboxes").ret
        = .returned (got, some err) →
      (c.ListMailboxes env ctx).ret = .returned (none, some err)) ∧
    (∀ (localPart : String),
      (c.Get env ctx ("mailboxes/" ++ localPart)).ret
        = .returned (got, some err) →
      (c.GetMailbox env ctx localPart).ret = .returned (none, some err)) ∧
    (∀ (localPart displayName invitationEmail initialPassword : String),
      (c.Post env ctx "mailboxes" (marshalBytes env (newMailboxValue localPart displayName
        invitationEmail initialPassword).toJSON)).ret
        = .returned (got, some err) →
      (c.NewMailbox env ctx localPart displayName invitationEmail initialPassword).ret = .returned (none, some err)) ∧
    (∀ (mb : Mailbox),
      (c.Put env ctx ("mailboxes/" ++ mb.LocalPart) (marshalBytes env mb.toJSON)).ret
        = .returned (got, some err) →
      (c.UpdateMailbox env ctx mb).ret = .returned (none, some err)) ∧
    (∀ (mb : Mailbox),
      (c.Delete env ctx ("mailboxes/" ++ mb.LocalPart)).ret
        = .returned (got, some err) →
      (c.DeleteMailbox env ctx mb).ret = .returned (some err)) ∧
    (∀ (mailbox : String),
      (c.Get env ctx ("mailboxes/" ++ mailbox ++ "/identities")).ret
        = .returned (got, some err) →
      (c.ListIdentities env ctx mailbox).ret = .returned (none, some err)) ∧
    (∀ (mailbox localPart : String),
      (c.Get env ctx ("mailboxes/" ++ mailbox ++ "/identities/" ++ localPart)).ret
        = .returned (got, some err) →
      (c.GetIdentity env ctx mailbox localPart).ret = .returned (none, some err)) ∧
    (∀ (mailbox localPart displayName : String),
      (c.Post env ctx ("mailboxes/" ++ mailbox ++ "/identities") (marshalBytes env (some
        (Identity.toJSON { LocalPart := localPart, Name := displayName })))).ret
        = .returned (got, some err) →
      (c.NewIdentity env ctx mailbox localPart displayName).ret = .returned (none, some err)) ∧
    (∀ (mailbox : String) (i : Identity),
      (c.Put env ctx ("mailboxes/" ++ mailbox ++ "/identities/" ++ i.LocalPart) (marshalBytes env
        (some i.toJSON))).ret
        = .returned (got, some err) →
      (c.UpdateIdentity env ctx mailbox i).ret = .returned (none, some err)) ∧
    (∀ (mailbox : String) (i : Identity),
      (c.Delete env ctx ("mailboxes/" ++ mailbox ++ "/identities/" ++ i.LocalPart)).ret
        = .returned (got, some err) →
      (c.DeleteIdentity env ctx mailbox i).ret = .returned (some err)) ∧
    ((c.Get env ctx "aliases").ret
        = .returned (got, some err) →
      (c.ListAliases env ctx).ret = .returned (none, some err)) ∧
    (∀ (localPart : String),
      (c.Get env ctx ("aliases/" ++ localPart)).ret
        = .returned (got, some err) →
      (c.GetAlias env ctx localPart).ret = .returned (none, some err)) ∧
    (∀ (localPart : String) (destinations : Slice String),
      (c.Post env ctx "aliases" (marshalBytes env (some (aliasWriteDoc
        { LocalPart := localPart, Destinations := destinations })))).ret
        = .returned (got, some err) →
      (c.NewAlias env ctx localPart destinations).ret = .returned (none, some err)) ∧
    (∀ (a : Alias),
      (c.Put env ctx ("aliases/" ++ a.LocalPart) (marshalBytes env (some (aliasWriteDoc a)))).ret
        = .returned (got, some err) →
      (c.UpdateAlias env ctx a).ret = .returned (none, some err)) ∧
    (∀ (a : Alias),
      (c.Delete env ctx ("aliases/" ++ a.LocalPart)).ret
        = .returned (got, some err) →
      (c.DeleteAlias env ctx a).ret = .returned (some err)) ∧
    ((c.Get env ctx "rewrites").ret
        = .returned (got, some err) →
      (c.ListRewrites env ctx).ret = .returned (none, some err)) ∧
    (∀ (name : String),
      (c.Get env ctx ("rewrites/" ++ name)).ret
        = .returned (got, some err) →
      (c.GetRewrite env ctx name).ret = .returned (none, some err)) ∧
    (∀ (name localPartRule : String) (destinations : Slice String),
      (c.Post env ctx "rewrites" (marshalBytes env (some (rewriteWriteDoc
        { Name := name, LocalPartRule := localPartRule, Destinations := destinations })))).ret
        = .returned (got, some err) →
      (c.NewRewrite env ctx name localPartRule destinations).ret = .returned (none, some err)) ∧
    (∀ (r : Rewrite),
      (c.Put env ctx ("rewrites/" ++ r.Name) (marshalBytes env (some (rewriteWriteDoc r)))).ret
        = .returned (got, some err) →
      (c.UpdateRewrite env ctx r).ret = .returned (none, some err)) ∧
    (∀ (r : Rewrite),
      (c.Delete env ctx ("rewrites/" ++ r.Name)).ret
        = .returned (got, some err) →
      (c.DeleteRewrite env ctx r).ret = .returned (some err)) := by
  refine ⟨?_, ?_, ?_, ?_, ?_, ?_, ?_, ?_, ?_, ?_, ?_, ?_, ?_, ?_, ?_, ?_, ?_, ?_, ?_, ?_⟩
  · intro h
    exact ListMailboxes_ret_err c env ctx got err h
  · intro localPart h
    exact GetMailbox_ret_err c env ctx localPart got err h
  · intro localPart displayName invitationEmail initialPassword h
    exact NewMailbox_ret_err c env ctx localPart displayName invitationEmail initialPassword got err h
  · intro mb h
    exact UpdateMailbox_ret_err c env ctx mb got err h
  · intro mb h
    exact DeleteMailbox_ret_err c env ctx mb got err h
  · intro mailbox h
    exact ListIdentities_ret_err c env ctx mailbox got err h
  · intro mailbox localPart h
    exact GetIdentity_ret_err c env ctx mailbox localPart got err h
  · intro mailbox localPart displayName h
    exact NewIdentity_ret_err c env ctx mailbox localPart displayName got err h
  · intro mailbox i h
    exact UpdateIdentity_ret_err c env ctx mailbox i got err h
  · intro mailbox i h
    exact DeleteIdentity_ret_err c env ctx mailbox i got err h
  · intro h
    exact ListAliases_ret_err c env ctx got err h
  · intro localPart h
    exact GetAlias_ret_err c env ctx localPart got err h
  · intro localPart destinations h
    exact NewAlias_ret_err c env ctx localPart destinations got err h
  · intro a h
    exact UpdateAlias_ret_err c env ctx a got err h
  · intro a h
    exact DeleteAlias_ret_err c env ctx a got err h
  · intro h
    exact ListRewrites_ret_err c env ctx got err h
  · intro name h
    exact GetRewrite_ret_err c env ctx name got err h
  · intro name localPartRule destinations h
    exact NewRewrite_ret_err c env ctx name localPartRule destinations got err h
  · intro r h
    exact UpdateRewrite_ret_err c env ctx r got err h
  · intro r h
    exact DeleteRewrite_ret_err c env ctx r got err h

/-- C3 (witness): a transport answering 404 makes GetMailbox return the status
error of Get itself and no mailbox. -/
theorem C3_transport_errors_propagate_witness :
    ((sampleClient (fixedTransport 404 "")).Get sampleEnv Context.Background
        ("mailboxes/" ++ "sales")).ret
      = .returned (none, some (.errorf "status code 404 is not 200")) ∧
    ((sampleClient (fixedTransport 404 "")).GetMailbox sampleEnv Context.Background "sales").ret
      = .returned (none, some (.errorf "status code 404 is not 200")) :=
  ⟨rfl, (C3_transport_errors_propagate (sampleClient (fixedTransport 404 "")) sampleEnv
    Context.Background none (.errorf "status code 404 is not 200")).2.1 "sales" rfl⟩

/-! ### C4: the payload of NewMailbox -/

/-- C4 (counterexample): NewMailbox called with an empty display name sends a
payload that has no `name` member at all, so the payload does not carry a name
equal to that argument. -/
theorem C4_empty_argument_not_in_payload :
    (newMailboxValue "sales" "" "owner@example.com" "").toJSON
      = some (.obj [("local_part", .str "sales"), ("password_method", .str "invitation"),
          ("password_recovery_email", .str "owner@example.com")]) ∧
    lookupMember "name"
      [("local_part", JValue.str "sales"), ("password_method", JValue.str "invitation"),
        ("password_recovery_email", JValue.str "owner@example.com")] = none :=
  ⟨rfl, rfl⟩

/-- C4 (amended): NewMailbox marshals one document `doc` and hands it, as the
body of a POST to `mailboxes`, to the transport.  With a non-empty initial
password `doc` has `password_method` = "password" and `password` = that
password; with an empty one it has `password_method` = "invitation" and no
`password` member.  Each of `local_part`, `name` and `password_recovery_email`
is a member equal to its argument when the argument is non-empty, and is absent
from `doc` when the argument is empty. -/
theorem C4_new_mailbox_payload (c : Client) (env : Env) (ctx : Context)
    (localPart displayName invitationEmail initialPassword : String) :
    ∃ doc,
      (newMailboxValue localPart displayName invitationEmail initialPassword).toJSON = some doc ∧
      (∀ req ∈ (c.NewMailbox env ctx localPart displayName invitationEmail initialPassword).sent,
        req.Method = "POST" ∧ req.URL = c.BaseURL ++ "/" ++ "mailboxes" ∧
          req.Body = some (env.encode doc)) ∧
      (initialPassword ≠ "" →
        HasOnlyStringMember "password_method" doc "password" ∧
        HasOnlyStringMember "password" doc initialPassword) ∧
      (initialPassword = "" →
        HasOnlyStringMember "password_method" doc "invitation" ∧
        LacksMember "password" doc) ∧
      (localPart ≠ "" → HasOnlyStringMember "local_part" doc localPart) ∧
      (localPart = "" → LacksMember "local_part" doc) ∧
      (displayName ≠ "" → HasOnlyStringMember "name" doc displayName) ∧
      (displayName = "" → LacksMember "name" doc) ∧
      (invitationEmail ≠ "" →
        HasOnlyStringMember "password_recovery_email" doc invitationEmail) ∧
      (invitationEmail = "" → LacksMember "password_recovery_email" doc) := by
  refine ⟨_, newMailboxValue_toJSON localPart displayName invitationEmail initialPassword,
    ?_, ?_, ?_, ?_, ?_, ?_, ?_, ?_, ?_⟩
  · intro req hreq
    rw [NewMailbox_sent] at hreq
    rw [Post_sent_body _ _ _ _ _ req hreq, newMailboxValue_toJSON]
    exact ⟨rfl, rfl, rfl⟩
  · intro hp
    constructor
    · apply hasOnlyStringMember_of_filter
      simp only [docMembers, mailbox_member_password_method]
      simp [newMailboxValue, hp]
    · apply hasOnlyStringMember_of_filter
      simp only [docMembers, mailbox_member_password]
      simp [newMailboxValue, hp]
  · intro hp
    constructor
    · apply hasOnlyStringMember_of_filter
      simp only [docMembers, mailbox_member_password_method]
      simp [newMailboxValue, hp]
    · apply lacksMember_of_filter
      simp only [docMembers, mailbox_member_password]
      simp [newMailboxValue, hp]
  · intro h
    apply hasOnlyStringMember_of_filter
    simp only [docMembers, mailbox_member_local_part]
    by_cases hp : initialPassword = "" <;> simp [newMailboxValue, hp, h]
  · intro h
    apply lacksMember_of_filter
    simp only [docMembers, mailbox_member_local_part]
    by_cases hp : initialPassword = "" <;> simp [newMailboxValue, hp, h]
  · intro h
    apply hasOnlyStringMember_of_filter
    simp only [docMembers, mailbox_member_name]
    by_cases hp : initialPassword = "" <;> simp [newMailboxValue, hp, h]
  · intro h
    apply lacksMember_of_filter
    simp only [docMembers, mailbox_member_name]
    by_cases hp : initialPassword = "" <;> simp [newMailboxValue, hp, h]
  · intro h
    apply hasOnlyStringMember_of_filter
    simp only [docMembers, mailbox_member_recovery_email]
    by_cases hp : initialPassword = "" <;> simp [newMailboxValue, hp, h]
  · intro h
    apply lacksMember_of_filter
    simp only [docMembers, mailbox_member_recovery_email]
    by_cases hp : initialPassword = "" <;> simp [newMailboxValue, hp, h]

/-- C4 (witness): the spec's scenario, a mailbox `sales` with no password, and
the body NewMailbox sends for it under the sample rendering. -/
theorem C4_new_mailbox_payload_witness :
    (∃ doc,
      (newMailboxValue "sales" "Sales Team" "owner@example.com" "").toJSON = some doc ∧
      HasOnlyStringMember "password_method" doc "invitation" ∧
      LacksMember "password" doc ∧
      HasOnlyStringMember "local_part" doc "sales") ∧
    ((sampleClient refusingTransport).NewMailbox sampleEnv Context.Background
        "sales" "Sales Team" "owner@example.com" "").sent.map Request.Body
      = [some ("\x7b\"local_part\":\"sales\",\"name\":\"Sales Team\"," ++
          "\"password_method\":\"invitation\"," ++
          "\"password_recovery_email\":\"owner@example.com\"\x7d")] := by
  obtain ⟨doc, h1, _, _, h4, h5, _⟩ :=
    C4_new_mailbox_payload (sampleClient refusingTransport) sampleEnv Context.Background
      "sales" "Sales Team" "owner@example.com" ""
  exact ⟨⟨doc, h1, (h4 rfl).1, (h4 rfl).2, h5 (by decide)⟩, rfl⟩

/-! ### C5: listing an empty collection -/

/-- C6 (counterexample): with a context that is already cancelled and a
transport that answers 200 without looking at the context, Get passes its
request to `Do` all the same and returns the response with a nil error. -/
theorem C6_cancelled_context_still_sent :
    (⟨true, none⟩ : Context).done = true ∧
    ((sampleClient (fixedTransport 200 "")).Get sampleEnv ⟨true, none⟩ "mailboxes").sent
      = [{ sampleGet with ctx := ⟨true, some 120⟩ }] ∧
    ((sampleClient (fixedTransport 200 "")).Get sampleEnv ⟨true, none⟩ "mailboxes").ret
      = .returned (some ⟨200, ""⟩, none) :=
  ⟨rfl, rfl, rfl⟩

/-- C6 (amended): for Get, Post, Put and Delete called with a context that is
already cancelled, when the request can be built: the call passes exactly one
request to the transport's `Do`, that request carries a context that is already
cancelled, and if the transport honours cancellation the call returns no
response and the transport's error. -/
theorem C6_cancelled_context_reaches_transport (c : Client) (env : Env) (ctx : Context)
    (path body : String) (hdone : ctx.done = true)
    (hu : env.urlError (c.BaseURL ++ "/" ++ path) = none) :
    (∃ req, (c.Get env ctx path).sent = [req] ∧ req.ctx.done = true ∧
      (HonoursCancellation c.HTTPClient →
        ∃ e, c.HTTPClient req = (none, some e) ∧
          (c.Get env ctx path).ret = .returned (none, some e))) ∧
    (∃ req, (c.Post env ctx path body).sent = [req] ∧ req.ctx.done = true ∧
      (HonoursCancellation c.HTTPClient →
        ∃ e, c.HTTPClient req = (none, some e) ∧
          (c.Post env ctx path body).ret = .returned (none, some e))) ∧
    (∃ req, (c.Put env ctx path body).sent = [req] ∧ req.ctx.done = true ∧
      (HonoursCancellation c.HTTPClient →
        ∃ e, c.HTTPClient req = (none, some e) ∧
          (c.Put env ctx path body).ret = .returned (none, some e))) ∧
    (∃ req, (c.Delete env ctx path).sent = [req] ∧ req.ctx.done = true ∧
      (HonoursCancellation c.HTTPClient →
        ∃ e, c.HTTPClient req = (none, some e) ∧
          (c.Delete env ctx path).ret = .returned (none, some e))) := by
  refine ⟨?_, ?_, ?_, ?_⟩
  · obtain ⟨req, hs, hc, hr⟩ := Get_of_built c env ctx path hu
    have hd : req.ctx.done = true := by rw [hc]; exact hdone
    refine ⟨req, hs, hd, fun hh => ?_⟩
    obtain ⟨e, he⟩ := hh req hd
    exact ⟨e, he, hr e he⟩
  · obtain ⟨req, hs, hc, hr⟩ := Post_of_built c env ctx path body hu
    have hd : req.ctx.done = true := by rw [hc]; exact hdone
    refine ⟨req, hs, hd, fun hh => ?_⟩
    obtain ⟨e, he⟩ := hh req hd
    exact ⟨e, he, hr e he⟩
  · obtain ⟨req, hs, hc, hr⟩ := Put_of_built c env ctx path body hu
    have hd : req.ctx.done = true := by rw [hc]; exact hdone
    refine ⟨req, hs, hd, fun hh => ?_⟩
    obtain ⟨e, he⟩ := hh req hd
    exact ⟨e, he, hr e he⟩
  · obtain ⟨req, hs, hc, hr⟩ := Delete_of_built c env ctx path hu
    have hd : req.ctx.done = true := by rw [hc]; exact hdone
    refine ⟨req, hs, hd, fun hh => ?_⟩
    obtain ⟨e, he⟩ := hh req hd
    exact ⟨e, he, hr e he⟩

/-- C6 (witness): over a transport that checks the context, Get with a
cancelled context passes one request to the transport and returns its error. -/
theorem C6_cancelled_context_reaches_transport_witness :
    ∃ req, ((sampleClient cancelAwareTransport).Get sampleEnv ⟨true, none⟩ "mailboxes").sent
        = [req] ∧ req.ctx.done = true ∧
      ∃ e, cancelAwareTransport req = (none, some e) ∧
        ((sampleClient cancelAwareTransport).Get sampleEnv ⟨true, none⟩ "mailboxes").ret
          = .returned (none, some e) := by
  obtain ⟨req, hs, hd, hh⟩ :=
    (C6_cancelled_context_reaches_transport (sampleClient cancelAwareTransport) sampleEnv
      ⟨true, none⟩ "mailboxes" "" rfl rfl).1
  exact ⟨req, hs, hd, hh cancelAwareTransport_honours⟩

/-! ### C7: construction of a client -/

/-- C7: New makes one call of Get, for the path `mailboxes` under the base URL
built from the domain, and passes on the requests of that call.  When that Get
returns a response and a nil error, New returns the client (holding the given
email, API key and domain) and a nil error; when it returns an error, New
returns no client and an error wrapping it.  But when the URL cannot be parsed
(`http.NewRequestWithContext` fails), Get dereferences the nil request, and New
panics instead of returning a construction error. -/
theorem C7_new_follows_the_get (env : Env) (email apiKey domain : String) :
    (New env email apiKey domain).sent
      = (Client.Get
          { Email := email, APIKey := apiKey, Domain := domain,
            BaseURL := "https://api.migadu.com/v1/domains/" ++ domain,
            HTTPClient := env.defaultClient } env Context.Background "mailboxes").sent ∧
    (∀ resp,
      (Client.Get
          { Email := email, APIKey := apiKey, Domain := domain,
            BaseURL := "https://api.migadu.com/v1/domains/" ++ domain,
            HTTPClient := env.defaultClient } env Context.Background "mailboxes").ret
        = .returned (some resp, none) →
      (New env email apiKey domain).ret
        = .returned (some
            { Email := email, APIKey := apiKey, Domain := domain,
              BaseURL := "https://api.migadu.com/v1/domains/" ++ domain,
              HTTPClient := env.defaultClient }, none)) ∧
    (∀ got err,
      (Client.Get
          { Email := email, APIKey := apiKey, Domain := domain,
            BaseURL := "https://api.migadu.com/v1/domains/" ++ domain,
            HTTPClient := env.defaultClient } env Context.Background "mailboxes").ret
        = .returned (got, some err) →
      (New env email apiKey domain).ret
        = .returned (none,
            some (.wrap ("Authorisation not valid. Error: " ++ err.message) err))) ∧
    (∀ e,
      env.urlError ("https://api.migadu.com/v1/domains/" ++ domain ++ "/" ++ "mailboxes")
        = some e →
      (New env email apiKey domain).ret = .panicked ∧
        (New env email apiKey domain).sent = []) := by
  refine ⟨?_, ?_, ?_, ?_⟩
  · simp only [New, Client.testAuth]
    split <;> rename_i h <;> split at h <;> simp_all
  · intro resp h
    simp only [New, Client.testAuth, h]
  · intro got err h
    simp only [New, Client.testAuth, h]
  · intro e h
    simp only [New, Client.testAuth, Client.Get, NewRequestWithContext, h, and_self]

/-- C7 (failing input): a domain read with its trailing newline makes the URL
unparseable, and New panics. -/
theorem C7_new_panics_on_unparseable_domain :
    (New sampleEnv "admin@example.com" "key" "example.com\n").ret = .panicked ∧
    (New sampleEnv "admin@example.com" "key" "example.com\n").sent = [] :=
  (C7_new_follows_the_get sampleEnv "admin@example.com" "key" "example.com\n").2.2.2
    (.lib "net/url: invalid control character in URL") rfl

/-! ### C8: response bodies are decoded leniently -/

/-- C8: for every List, Get, New and Update operation, when the transport
answers the call with status 200 the operation returns a nil error, whatever
the body; and when that body is not valid JSON, GetMailbox, GetIdentity,
GetAlias and GetRewrite return the zero-valued entity while NewMailbox,
NewIdentity, NewAlias and NewRewrite return the entity built from the caller's
arguments. -/
theorem C8_status_200_never_errors (c : Client) (env : Env) (ctx : Context)
    (resp : Response) (h200 : resp.StatusCode = 200) :
    (Answered c (c.ListMailboxes env ctx) resp →
      ReturnsNilError (c.ListMailboxes env ctx)) ∧
    (∀ (localPart : String),
      Answered c (c.GetMailbox env ctx localPart) resp →
      ReturnsNilError (c.GetMailbox env ctx localPart)) ∧
    (∀ (localPart displayName invitationEmail initialPassword : String),
      Answered c (c.NewMailbox env ctx localPart displayName invitationEmail initialPassword) resp →
      ReturnsNilError (c.NewMailbox env ctx localPart displayName invitationEmail initialPassword)) ∧
    (∀ (mb : Mailbox),
      Answered c (c.UpdateMailbox env ctx mb) resp →
      ReturnsNilError (c.UpdateMailbox env ctx mb)) ∧
    (∀ (mailbox : String),
      Answered c (c.ListIdentities env ctx mailbox) resp →
      ReturnsNilError (c.ListIdentities env ctx mailbox)) ∧
    (∀ (mailbox localPart : String),
      Answered c (c.GetIdentity env ctx mailbox localPart) resp →
      ReturnsNilError (c.GetIdentity env ctx mailbox localPart)) ∧
    (∀ (mailbox localPart displayName : String),
      Answered c (c.NewIdentity env ctx mailbox localPart displayName) resp →
      ReturnsNilError (c.NewIdentity env ctx mailbox localPart displayName)) ∧
    (∀ (mailbox : String) (i : Identity),
      Answered c (c.UpdateIdentity env ctx mailbox i) resp →
      ReturnsNilError (c.UpdateIdentity env ctx mailbox i)) ∧
    (Answered c (c.ListAliases env ctx) resp →
      ReturnsNilError (c.ListAliases env ctx)) ∧
    (∀ (localPart : String),
      Answered c (c.GetAlias env ctx localPart) resp →
      ReturnsNilError (c.GetAlias env ctx localPart)) ∧
    (∀ (localPart : String) (destinations : Slice String),
      Answered c (c.NewAlias env ctx localPart destinations) resp →
      ReturnsNilError (c.NewAlias env ctx localPart destinations)) ∧
    (∀ (a : Alias),
      Answered c (c.UpdateAlias env ctx a) resp →
      ReturnsNilError (c.UpdateAlias env ctx a)) ∧
    (Answered c (c.ListRewrites env ctx) resp →
      ReturnsNilError (c.ListRewrites env ctx)) ∧
    (∀ (name : String),
      Answered c (c.GetRewrite env ctx name) resp →
      ReturnsNilError (c.GetRewrite env ctx name)) ∧
    (∀ (name localPartRule : String) (destinations : Slice String),
      Answered c (c.NewRewrite env ctx name localPartRule destinations) resp →
      ReturnsNilError (c.NewRewrite env ctx name localPartRule destinations)) ∧
    (∀ (r : Rewrite),
      Answered c (c.UpdateRewrite env ctx r) resp →
      ReturnsNilError (c.UpdateRewrite env ctx r)) ∧
    (∀ (localPart : String),
      Answered c (c.GetMailbox env ctx localPart) resp →
      env.parseJSON resp.Body = none →
      (c.GetMailbox env ctx localPart).ret
        = .returned (some ({} : Mailbox), none)) ∧
    (∀ (localPart displayName invitationEmail initialPassword : String),
      Answered c (c.NewMailbox env ctx localPart displayName invitationEmail initialPassword) resp →
      env.parseJSON resp.Body = none →
      (c.NewMailbox env ctx localPart displayName invitationEmail initialPassword).ret
        = .returned (some (newMailboxValue localPart displayName invitationEmail initialPassword), none)) ∧
    (∀ (mailbox localPart : String),
      Answered c (c.GetIdentity env ctx mailbox localPart) resp →
      env.parseJSON resp.Body = none →
      (c.GetIdentity env ctx mailbox localPart).ret
        = .returned (some ({} : Identity), none)) ∧
    (∀ (mailbox localPart displayName : String),
      Answered c (c.NewIdentity env ctx mailbox localPart displayName) resp →
      env.parseJSON resp.Body = none →
      (c.NewIdentity env ctx mailbox localPart displayName).ret
        = .returned (some ({ LocalPart := localPart, Name := displayName } : Identity), none)) ∧
    (∀ (localPart : String),
      Answered c (c.GetAlias env ctx localPart) resp →
      env.parseJSON resp.Body = none →
      (c.GetAlias env ctx localPart).ret
        = .returned (some ({} : Alias), none)) ∧
    (∀ (localPart : String) (destinations : Slice String),
      Answered c (c.NewAlias env ctx localPart destinations) resp →
      env.parseJSON resp.Body = none →
      (c.NewAlias env ctx localPart destinations).ret
        = .returned (some ({ LocalPart := localPart, Destinations := destinations } : Alias), none)) ∧
    (∀ (name : String),
      Answered c (c.GetRewrite env ctx name) resp →
      env.parseJSON resp.Body = none →
      (c.GetRewrite env ctx name).ret
        = .returned (some ({} : Rewrite), none)) ∧
    (∀ (name localPartRule : String) (destinations : Slice String),
      Answered c (c.NewRewrite env ctx name localPartRule destinations) resp →
      env.parseJSON resp.Body = none →
      (c.NewRewrite env ctx name localPartRule destinations).ret
        = .returned (some ({ Name := name, LocalPartRule := localPartRule, Destinations := destinations }
            : Rewrite), none)) := by
  refine ⟨?_, ?_, ?_, ?_, ?_, ?_, ?_, ?_, ?_, ?_, ?_, ?_, ?_, ?_, ?_, ?_, ?_, ?_, ?_, ?_, ?_, ?_, ?_, ?_⟩
  · intro h
    rw [Answered, ListMailboxes_sent] at h
    have hr := Get_ret_of_answered c env ctx _ resp h
    rw [if_neg (by simp [h200])] at hr
    exact ⟨_, ListMailboxes_ret_ok c env ctx resp hr⟩
  · intro localPart h
    rw [Answered, GetMailbox_sent] at h
    have hr := Get_ret_of_answered c env ctx _ resp h
    rw [if_neg (by simp [h200])] at hr
    exact ⟨_, GetMailbox_ret_ok c env ctx localPart resp hr⟩
  · intro localPart displayName invitationEmail initialPassword h
    rw [Answered, NewMailbox_sent] at h
    have hr := Post_ret_of_answered c env ctx _ _ resp h
    rw [if_neg (by simp [h200])] at hr
    exact ⟨_, NewMailbox_ret_ok c env ctx localPart displayName invitationEmail initialPassword resp hr⟩
  · intro mb h
    rw [Answered, UpdateMailbox_sent] at h
    have hr := Put_ret_of_answered c env ctx _ _ resp h
    rw [if_neg (by simp [h200])] at hr
    exact ⟨_, UpdateMailbox_ret_ok c env ctx mb resp hr⟩
  · intro mailbox h
    rw [Answered, ListIdentities_sent] at h
    have hr := Get_ret_of_answered c env ctx _ resp h
    rw [if_neg (by simp [h200])] at hr
    exact ⟨_, ListIdentities_ret_ok c env ctx mailbox resp hr⟩
  · intro mailbox localPart h
    rw [Answered, GetIdentity_sent] at h
    have hr := Get_ret_of_answered c env ctx _ resp h
    rw [if_neg (by simp [h200])] at hr
    exact ⟨_, GetIdentity_ret_ok c env ctx mailbox localPart resp hr⟩
  · intro mailbox localPart displayName h
    rw [Answered, NewIdentity_sent] at h
    have hr := Post_ret_of_answered c env ctx _ _ resp h
    rw [if_neg (by simp [h200])] at hr
    exact ⟨_, NewIdentity_ret_ok c env ctx mailbox localPart displayName resp hr⟩
  · intro mailbox i h
    rw [Answered, UpdateIdentity_sent] at h
    have hr := Put_ret_of_answered c env ctx _ _ resp h
    rw [if_neg (by simp [h200])] at hr
    exact ⟨_, UpdateIdentity_ret_ok c env ctx mailbox i resp hr⟩
  · intro h
    rw [Answered, ListAliases_sent] at h
    have hr := Get_ret_of_answered c env ctx _ resp h
    rw [if_neg (by simp [h200])] at hr
    exact ⟨_, ListAliases_ret_ok c env ctx resp hr⟩
  · intro localPart h
    rw [Answered, GetAlias_sent] at h
    have hr := Get_ret_of_answered c env ctx _ resp h
    rw [if_neg (by simp [h200])] at hr
    exact ⟨_, GetAlias_ret_ok c env ctx localPart resp hr⟩
  · intro localPart destinations h
    rw [Answered, NewAlias_sent] at h
    have hr := Post_ret_of_answered c env ctx _ _ resp h
    rw [if_neg (by simp [h200])] at hr
    exact ⟨_, NewAlias_ret_ok c env ctx localPart destinations resp hr⟩
  · intro a h
    rw [Answered, UpdateAlias_sent] at h
    have hr := Put_ret_of_answered c env ctx _ _ resp h
    rw [if_neg (by simp [h200])] at hr
    exact ⟨_, UpdateAlias_ret_ok c env ctx a resp hr⟩
  · intro h
    rw [Answered, ListRewrites_sent] at h
    have hr := Get_ret_of_answered c env ctx _ resp h
    rw [if_neg (by simp [h200])] at hr
    exact ⟨_, ListRewrites_ret_ok c env ctx resp hr⟩
  · intro name h
    rw [Answered, GetRewrite_sent] at h
    have hr := Get_ret_of_answered c env ctx _ resp h
    rw [if_neg (by simp [h200])] at hr
    exact ⟨_, GetRewrite_ret_ok c env ctx name resp hr⟩
  · intro name localPartRule destinations h
    rw [Answered, NewRewrite_sent] at h
    have hr := Post_ret_of_answered c env ctx _ _ resp h
    rw [if_neg (by simp [h200])] at hr
    exact ⟨_, NewRewrite_ret_ok c env ctx name localPartRule destinations resp hr⟩
  · intro r h
    rw [Answered, UpdateRewrite_sent] at h
    have hr := Put_ret_of_answered c env ctx _ _ resp h
    rw [if_neg (by simp [h200])] at hr
    exact ⟨_, UpdateRewrite_ret_ok c env ctx r resp hr⟩
  · intro localPart h hbody
    rw [Answered, GetMailbox_sent] at h
    have hr := Get_ret_of_answered c env ctx _ resp h
    rw [if_neg (by simp [h200])] at hr
    rw [GetMailbox_ret_ok c env ctx localPart resp hr]
    simp only [jsonUnmarshal, hbody]
  · intro localPart displayName invitationEmail initialPassword h hbody
    rw [Answered, NewMailbox_sent] at h
    have hr := Post_ret_of_answered c env ctx _ _ resp h
    rw [if_neg (by simp [h200])] at hr
    rw [NewMailbox_ret_ok c env ctx localPart displayName invitationEmail initialPassword resp hr]
    simp only [jsonUnmarshal, hbody]
  · intro mailbox localPart h hbody
    rw [Answered, GetIdentity_sent] at h
    have hr := Get_ret_of_answered c env ctx _ resp h
    rw [if_neg (by simp [h200])] at hr
    rw [GetIdentity_ret_ok c env ctx mailbox localPart resp hr]
    simp only [jsonUnmarshal, hbody]
  · intro mailbox localPart displayName h hbody
    rw [Answered, NewIdentity_sent] at h
    have hr := Post_ret_of_answered c env ctx _ _ resp h
    rw [if_neg (by simp [h200])] at hr
    rw [NewIdentity_ret_ok c env ctx mailbox localPart displayName resp hr]
    simp only [jsonUnmarshal, hbody]
  · intro localPart h hbody
    rw [Answered, GetAlias_sent] at h
    have hr := Get_ret_of_answered c env ctx _ resp h
    rw [if_neg (by simp [h200])] at hr
    rw [GetAlias_ret_ok c env ctx localPart resp hr]
    simp only [jsonUnmarshal, hbody]
  · intro localPart destinations h hbody
    rw [Answered, NewAlias_sent] at h
    have hr := Post_ret_of_answered c env ctx _ _ resp h
    rw [if_neg (by simp [h200])] at hr
    rw [NewAlias_ret_ok c env ctx localPart destinations resp hr]
    simp only [jsonUnmarshal, hbody]
  · intro name h hbody
    rw [Answered, GetRewrite_sent] at h
    have hr := Get_ret_of_answered c env ctx _ resp h
    rw [if_neg (by simp [h200])] at hr
    rw [GetRewrite_ret_ok c env ctx name resp hr]
    simp only [jsonUnmarshal, hbody]
  · intro name localPartRule destinations h hbody
    rw [Answered, NewRewrite_sent] at h
    have hr := Post_ret_of_answered c env ctx _ _ resp h
    rw [if_neg (by simp [h200])] at hr
    rw [NewRewrite_ret_ok c env ctx name localPartRule destinations resp hr]
    simp only [jsonUnmarshal, hbody]

/-- C8 (witness): a 200 response whose body is not JSON makes GetMailbox return
the zero-valued mailbox and a nil error. -/
theorem C8_status_200_never_errors_witness :
    ((sampleClient (fixedTransport 200 "<html>")).GetMailbox sampleEnv Context.Background
        "sales").ret = .returned (some ({} : Mailbox), none) :=
  (C8_status_200_never_errors (sampleClient (fixedTransport 200 "<html>")) sampleEnv
    Context.Background ⟨200, "<html>"⟩ rfl).2.2.2.2.2.2.2.2.2.2.2.2.2.2.2.2.1 "sales"
    ⟨{ sampleGet with URL := "https://api.migadu.com/v1/domains/example.com/mailboxes/sales" },
      rfl, rfl⟩ rfl

/-! ### C9: the joined destinations can be split back -/

/-- C9: for a non-empty destination list none of whose addresses contains a
comma, splitting on the comma the string `convertDestinationsField` stores
gives back the list, same elements in the same order, for aliasJSON and for
rewriteJSON; hence two such lists with the same joined string are equal. -/
theorem C9_split_recovers_destinations (l : List String) (hne : l ≠ [])
    (hc : ∀ s ∈ l, ',' ∉ s.data) :
    (∀ a : aliasJSON, Slice.elems a.Alias.Destinations = l →
      stringsSplit a.convertDestinationsField.DestinationsJSON ',' = l) ∧
    (∀ r : rewriteJSON, Slice.elems r.Rewrite.Destinations = l →
      stringsSplit r.convertDestinationsField.DestinationsJSON ',' = l) ∧
    (∀ l2 : List String, l2 ≠ [] → (∀ s ∈ l2, ',' ∉ s.data) →
      stringsJoin l2 "," = stringsJoin l "," → l2 = l) := by
  refine ⟨?_, ?_, ?_⟩
  · intro a ha
    simp only [aliasJSON.convertDestinationsField, ha]
    exact stringsSplit_stringsJoin l hne hc
  · intro r hr
    simp only [rewriteJSON.convertDestinationsField, hr]
    exact stringsSplit_stringsJoin l hne hc
  · intro l2 hne2 hc2 hEq
    rw [← stringsSplit_stringsJoin l2 hne2 hc2, hEq, stringsSplit_stringsJoin l hne hc]

/-- C9 (witness): two addresses without a comma. -/
theorem C9_split_recovers_destinations_witness :
    stringsSplit
      (aliasJSON.convertDestinationsField
        { Alias := { Destinations := some ["a@x.com", "b@x.com"] } }).DestinationsJSON ','
      = ["a@x.com", "b@x.com"] :=
  (C9_split_recovers_destinations ["a@x.com", "b@x.com"] (by decide) (by decide)).1
    { Alias := { Destinations := some ["a@x.com", "b@x.com"] } } rfl

/-! ### C10: an empty destination list is not written -/

/-- C10: for a destination list that is nil or empty, the joined string is
empty, the document written for the Alias or Rewrite has no `destinations`
member of any shape, and that document is the body of every request NewAlias,
UpdateAlias, NewRewrite and UpdateRewrite pass to the transport. -/
theorem C10_empty_destinations_absent (c : Client) (env : Env) (ctx : Context)
    (d : Slice String) (hd : Slice.elems d = []) :
    (∀ a : Alias, a.Destinations = d →
      (aliasJSON.convertDestinationsField { Alias := a }).DestinationsJSON = "" ∧
      LacksMember "destinations" (aliasWriteDoc a)) ∧
    (∀ r : Rewrite, r.Destinations = d →
      (rewriteJSON.convertDestinationsField { Rewrite := r }).DestinationsJSON = "" ∧
      LacksMember "destinations" (rewriteWriteDoc r)) ∧
    (∀ localPart, ∀ req ∈ (c.NewAlias env ctx localPart d).sent,
      req.Body = some (env.encode (aliasWriteDoc { LocalPart := localPart, Destinations := d }))) ∧
    (∀ a : Alias, a.Destinations = d → ∀ req ∈ (c.UpdateAlias env ctx a).sent,
      req.Body = some (env.encode (aliasWriteDoc a))) ∧
    (∀ name localPartRule, ∀ req ∈ (c.NewRewrite env ctx name localPartRule d).sent,
      req.Body = some (env.encode (rewriteWriteDoc
        { Name := name, LocalPartRule := localPartRule, Destinations := d }))) ∧
    (∀ r : Rewrite, r.Destinations = d → ∀ req ∈ (c.UpdateRewrite env ctx r).sent,
      req.Body = some (env.encode (rewriteWriteDoc r))) := by
  have hj : stringsJoin (Slice.elems d) "," = "" := by rw [hd]; rfl
  refine ⟨?_, ?_, ?_, ?_, ?_, ?_⟩
  · intro a ha
    refine ⟨by simp only [aliasJSON.convertDestinationsField, ha, hj], ?_⟩
    apply lacksMember_of_filter
    rw [aliasWriteDoc_dest_members, ha, if_pos hj]
  · intro r hr
    refine ⟨by simp only [rewriteJSON.convertDestinationsField, hr, hj], ?_⟩
    apply lacksMember_of_filter
    rw [rewriteWriteDoc_dest_members, hr, if_pos hj]
  · intro localPart req hreq
    rw [NewAlias_sent] at hreq
    rw [Post_sent_body _ _ _ _ _ req hreq]
    rfl
  · intro a _ req hreq
    rw [UpdateAlias_sent] at hreq
    rw [Put_sent_body _ _ _ _ _ req hreq]
    rfl
  · intro name localPartRule req hreq
    rw [NewRewrite_sent] at hreq
    rw [Post_sent_body _ _ _ _ _ req hreq]
    rfl
  · intro r _ req hreq
    rw [UpdateRewrite_sent] at hreq
    rw [Put_sent_body _ _ _ _ _ req hreq]
    rfl

/-- C10 (witness): an alias whose destination list was emptied, and the body
UpdateAlias sends for it under the sample rendering. -/
theorem C10_empty_destinations_absent_witness :
    LacksMember "destinations"
      (aliasWriteDoc { LocalPart := "support", Destinations := some [] }) ∧
    ((sampleClient refusingTransport).UpdateAlias sampleEnv Context.Background
        { LocalPart := "support", Destinations := some [] }).sent.map Request.Body
      = [some "\x7b\"local_part\":\"support\"\x7d"] :=
  ⟨((C10_empty_destinations_absent (sampleClient refusingTransport) sampleEnv
      Context.Background (some []) rfl).1
      { LocalPart := "support", Destinations := some [] } rfl).2,
    rfl⟩

/-! ### C11: a request that failed to build -/

/-- C11: when `http.NewRequestWithContext` fails for the joined URL, each of
Get, Post, Put and Delete calls `SetBasicAuth` on the nil request before it
tests the error, so the call panics: it does not return the construction error
(nor anything else).  The transport is not invoked. -/
theorem C11_unbuilt_request_is_dereferenced (c : Client) (env : Env) (ctx : Context)
    (path body : String) (e : GoError)
    (hu : env.urlError (c.BaseURL ++ "/" ++ path) = some e) :
    ((c.Get env ctx path).ret = .panicked ∧
      (c.Get env ctx path).ret ≠ .returned (none, some e) ∧
      (c.Get env ctx path).sent = []) ∧
    ((c.Post env ctx path body).ret = .panicked ∧
      (c.Post env ctx path body).ret ≠ .returned (none, some e) ∧
      (c.Post env ctx path body).sent = []) ∧
    ((c.Put env ctx path body).ret = .panicked ∧
      (c.Put env ctx path body).ret ≠ .returned (none, some e) ∧
      (c.Put env ctx path body).sent = []) ∧
    ((c.Delete env ctx path).ret = .panicked ∧
      (c.Delete env ctx path).ret ≠ .returned (none, some e) ∧
      (c.Delete env ctx path).sent = []) := by
  refine ⟨?_, ?_, ?_, ?_⟩
  · simp [Client.Get, NewRequestWithContext, hu]
  · simp [Client.Post, NewRequestWithContext, hu]
  · simp [Client.Put, NewRequestWithContext, hu]
  · simp [Client.Delete, NewRequestWithContext, hu]

/-- C11 (failing input): a path holding a newline makes the joined URL
unparseable; Get panics and hands nothing to the transport. -/
theorem C11_unbuilt_request_is_dereferenced_witness :
    sampleEnv.urlError ((sampleClient refusingTransport).BaseURL ++ "/" ++ "mailboxes/sales\n")
      = some (.lib "net/url: invalid control character in URL") ∧
    ((sampleClient refusingTransport).Get sampleEnv Context.Background
        "mailboxes/sales\n").ret = .panicked ∧
    ((sampleClient refusingTransport).Get sampleEnv Context.Background
        "mailboxes/sales\n").sent = [] :=
  have h := (C11_unbuilt_request_is_dereferenced (sampleClient refusingTransport) sampleEnv
    Context.Background "mailboxes/sales\n" "" (.lib "net/url: invalid control character in URL")
    rfl).1
  ⟨rfl, h.1, h.2.2⟩

end Migadu
